import Mathlib

/-!
# Verification of the task/workflow orchestration engine

A shallow embedding, in Lean 4, of the core of the `local_agent` browser
automation service: the event canonicalizer, the direct replay engine, the
AI agent loop, the action executor and the task/batch state machines, as
implemented in `src/local_agent`.  Pure algorithms are translated as Lean
functions; interactions with the browser driver and the vision model are
modelled by explicit outcome oracles (one field per primitive call site,
each `Option String`: `none` means the call succeeded, `some e` means it
raised an exception whose text is `e`).  Strings are Lean `String`s;
Python `None`-able fields become `Option`; timestamps and screenshots are
outside the embedding.
-/

set_option maxRecDepth 10000

namespace LocalAgent

/-- Single quote character, used when synthesizing step descriptions. -/
def sq : String := "\x27"

/-- `ElementInfo` from `agent/workflow.py`: the bag of weak identifiers for a
page element.  Raw recorder event dictionaries carry the same keys with the
same defaults, so the raw-event element is represented by this type too. -/
structure ElementInfo where
  tag : String := ""
  text : String := ""
  aria_label : String := ""
  placeholder : String := ""
  role : String := ""
  name : String := ""
  input_type : String := ""
  tooltip : String := ""
  title : String := ""
  contenteditable : Bool := false
  parent_context : String := ""
  label : String := ""
deriving Repr, DecidableEq, Inhabited

/-- `WorkflowStep` from `agent/workflow.py`.  `coordinates` is the optional
absolute pixel pair (Python `list[int] | None`, always `[x, y]` when
present). -/
structure WorkflowStep where
  action : String
  description : String := ""
  coordinates : Option (Int × Int) := none
  text : String := ""
  key : String := ""
  url : String := ""
  element : ElementInfo := {}
deriving Repr, DecidableEq, Inhabited

/-- Modelled from the spec: the named `Parameter` (`{name, label, default}`)
of a workflow.  The `Workflow` dataclass shipped under `src/` predates the
parameter feature; `api/routes.py` and `agent/batch.py` consume
`workflow.parameters`, whose definition is not under `src/`. -/
structure Parameter where
  name : String
  label : String := ""
  default : String := ""
deriving Repr, DecidableEq, Inhabited

/-- `Workflow` from `agent/workflow.py`, extended with the `parameters`
field that its callers in `api/routes.py` use (modelled from the spec, see
`Parameter`).  `recorded_at` is kept as an opaque string. -/
structure Workflow where
  name : String
  description : String := ""
  start_url : String := ""
  steps : List WorkflowStep := []
  recorded_at : String := ""
  parameters : List Parameter := []
deriving Repr, DecidableEq, Inhabited

/-- One raw recorded interaction event (`agent/workflow.py`,
`process_raw_events` input).  Missing dictionary keys are the defaults. -/
structure RawEvent where
  type : String := ""
  element : ElementInfo := {}
  x : Int := 0
  y : Int := 0
  text : String := ""
  key : String := ""
  url : String := ""
deriving Repr, DecidableEq, Inhabited

/-- `_describe_element` from `agent/workflow.py` (short form used for step
descriptions). -/
def describe_element (element : ElementInfo) : String :=
  if element.aria_label ≠ "" then sq ++ element.aria_label ++ sq
  else if element.tooltip ≠ "" then sq ++ element.tooltip ++ sq
  else if element.title ≠ "" then sq ++ element.title ++ sq
  else if element.text ≠ "" then
    sq ++ (element.text.take 40 ++ (if element.text.length > 40 then "..." else "")) ++ sq
  else if element.placeholder ≠ "" then sq ++ element.placeholder ++ sq ++ " field"
  else if element.role ≠ "" then element.role
  else if element.tag ≠ "" then element.tag
  else "element"

/-- `_elements_match` from `agent/workflow.py`: two element descriptors match
iff they share a non-empty value on one of aria-label, name, placeholder,
label, tooltip. -/
def elements_match (a b : ElementInfo) : Bool :=
  (a.aria_label ≠ "" ∧ b.aria_label ≠ "" ∧ a.aria_label = b.aria_label) ∨
  (a.name ≠ "" ∧ b.name ≠ "" ∧ a.name = b.name) ∨
  (a.placeholder ≠ "" ∧ b.placeholder ≠ "" ∧ a.placeholder = b.placeholder) ∨
  (a.label ≠ "" ∧ b.label ≠ "" ∧ a.label = b.label) ∨
  (a.tooltip ≠ "" ∧ b.tooltip ≠ "" ∧ a.tooltip = b.tooltip)

/-- The field identity used by `_deduplicate_steps`: first non-empty of
aria-label / name / placeholder (Python `or` chain). -/
def fieldId (el : ElementInfo) : String :=
  if el.aria_label ≠ "" then el.aria_label
  else if el.name ≠ "" then el.name
  else el.placeholder

/-- Characters of a string before the first occurrence of `c`
(Python `s.split(c)[0]`). -/
def takeUntilChar (c : Char) : List Char → List Char
  | [] => []
  | x :: xs => if x = c then [] else x :: takeUntilChar c xs

/-- Characters of a string after the first occurrence of `c`, or `none` when
`c` does not occur (Python `s.split(c, 1)[1]` guarded by `c in s`). -/
def afterChar (c : Char) : List Char → Option (List Char)
  | [] => none
  | x :: xs => if x = c then some xs else afterChar c xs

/-- Characters after the first occurrence of the substring `pat`, or `none`
when `pat` does not occur (Python `s.split(pat, 1)[1]` guarded by
`pat in s`). -/
def afterSub (pat : List Char) : List Char → Option (List Char)
  | [] => if pat.isPrefixOf ([] : List Char) then some [] else none
  | x :: xs =>
    if pat.isPrefixOf (x :: xs) then some ((x :: xs).drop pat.length)
    else afterSub pat xs

/-- `_is_ephemeral_navigation` from `agent/workflow.py`: a hash-only
navigation whose fragment carries a `compose=` id longer than 20 chars. -/
def is_ephemeral_navigation (url start_url : String) : Bool :=
  let base_new := takeUntilChar '#' url.data
  let base_start := if start_url ≠ "" then takeUntilChar '#' start_url.data else []
  if base_new ≠ base_start then false
  else
    let fragment := (afterChar '#' url.data).getD []
    match afterSub "compose=".data fragment with
    | some compose_id => decide (compose_id.length > 20)
    | none => false

/-- Is this raw event a `Backspace`/`Delete` key press? -/
def isBackspaceKey (e : RawEvent) : Bool :=
  e.type = "key" ∧ (e.key = "Backspace" ∨ e.key = "Delete")

/-- `_next_non_backspace` from `agent/workflow.py`: the first of the next
`fuel` events (the source uses a window of 5) that is not a
Backspace/Delete key press. -/
def next_non_backspace : List RawEvent → Nat → Option RawEvent
  | [], _ => none
  | _, 0 => none
  | e :: rest, n + 1 =>
    if isBackspaceKey e then next_non_backspace rest n else some e

/-- The inner merge loop of the `type` case of `process_raw_events`: extend
the run while the next event is a matching `type` event (keeping its text
and element) or a Backspace/Delete key (swallowed); return the final
element, final text, and the remaining events. -/
def mergeRun (elem : ElementInfo) (text : String) :
    List RawEvent → ElementInfo × String × List RawEvent
  | [] => (elem, text, [])
  | e :: rest =>
    if e.type = "type" ∧ elements_match elem e.element then
      mergeRun e.element e.text rest
    else if isBackspaceKey e then mergeRun elem text rest
    else (elem, text, e :: rest)

/-- The `click` step built by `process_raw_events` for a click event. -/
def clickStepOf (e : RawEvent) : WorkflowStep :=
  { action := "click"
    coordinates := some (e.x, e.y)
    element := e.element
    description := "Click " ++ describe_element e.element }

/-- The `type` step built by `process_raw_events` for a merged type run. -/
def typeStepOf (el : ElementInfo) (txt : String) : WorkflowStep :=
  { action := "type"
    text := txt
    element := el
    description := "Type " ++ sq ++ txt ++ sq ++ " in " ++ describe_element el }

/-- The `key` step built by `process_raw_events` for a key event. -/
def keyStepOf (e : RawEvent) : WorkflowStep :=
  { action := "key"
    key := e.key
    element := e.element
    description := "Press " ++ e.key }

/-- The `navigate` step built by `process_raw_events`. -/
def navStepOf (url : String) : WorkflowStep :=
  { action := "navigate", url := url, description := "Navigate to " ++ url }

/-- Phase 1 of `process_raw_events` from `agent/workflow.py`: the single
left-to-right pass over the raw events.  The source walks an index `i`
with in-place jumps; each iteration consumes the head event plus, for a
`type` event, the events merged into its run, so the loop is expressed as
recursion on the remaining suffix. -/
def phase1 (start_url : String) : List RawEvent → List WorkflowStep
  | [] => []
  | e :: rest =>
    if e.type = "navigate" then
      (if e.url ≠ "" ∧ e.url ≠ start_url ∧ ¬ is_ephemeral_navigation e.url start_url
       then [navStepOf e.url] else []) ++ phase1 start_url rest
    else if e.type = "click" then
      match next_non_backspace rest 5 with
      | some nxt =>
        if nxt.type = "type" ∧ elements_match e.element nxt.element then
          phase1 start_url rest
        else clickStepOf e :: phase1 start_url rest
      | none => clickStepOf e :: phase1 start_url rest
    else if e.type = "type" then
      let m := mergeRun e.element e.text rest
      (if m.2.1 ≠ "" then [typeStepOf m.1 m.2.1] else []) ++ phase1 start_url m.2.2
    else if e.type = "key" then
      (if e.key = "Backspace" ∨ e.key = "Delete" then []
       else if e.key ≠ "" then [keyStepOf e] else []) ++ phase1 start_url rest
    else phase1 start_url rest
  termination_by l => l.length
  decreasing_by
    all_goals simp_wf
    · have hlen : ∀ (el : ElementInfo) (tx : String) (l : List RawEvent),
          (mergeRun el tx l).2.2.length ≤ l.length := by
        intro el tx l
        induction l generalizing el tx with
        | nil => simp [mergeRun]
        | cons ev r ih =>
          simp only [mergeRun]
          split
          · exact le_trans (ih _ _) (Nat.le_succ _)
          · split
            · exact le_trans (ih _ _) (Nat.le_succ _)
            · simp
      have := hlen e.element e.text rest
      omega

/-- Association-list lookup standing in for a Python `dict` read
(`d.get(k)` / `k in d`). -/
def lookupA {α : Type} (m : List (String × α)) (k : String) : Option α :=
  match m with
  | [] => none
  | p :: rest => if p.1 = k then some p.2 else lookupA rest k

/-- The accumulator loop of `_deduplicate_steps` from `agent/workflow.py`:
`result` is the steps kept so far, `typed` maps field identities to the
most recently typed text. -/
def dedupAux : List WorkflowStep → List WorkflowStep → List (String × String) →
    List WorkflowStep
  | [], result, _ => result
  | s :: rest, result, typed =>
    if s.action = "type" then
      let fid := fieldId s.element
      if fid ≠ "" then
        if (lookupA typed fid).any (· = s.text) then
          -- exact duplicate type: skip
          dedupAux rest result typed
        else
          dedupAux rest
            ((result.filter fun r => ¬ (r.action = "type" ∧ fieldId r.element = fid))
              ++ [s])
            ((fid, s.text) :: typed)
      else dedupAux rest (result ++ [s]) typed
    else if s.action = "click" then
      let fid := fieldId s.element
      if fid ≠ "" ∧ (lookupA typed fid).isSome then dedupAux rest result typed
      else dedupAux rest (result ++ [s]) typed
    else dedupAux rest (result ++ [s]) typed

/-- `_deduplicate_steps` from `agent/workflow.py`. -/
def deduplicate_steps (steps : List WorkflowStep) : List WorkflowStep :=
  dedupAux steps [] []

/-- `process_raw_events` from `agent/workflow.py`: canonicalization of a raw
event list into workflow steps (phase 1 pass, then the deduplication
pass). -/
def process_raw_events (events : List RawEvent) (start_url : String := "") :
    List WorkflowStep :=
  match events with
  | [] => []
  | _ => deduplicate_steps (phase1 start_url events)

/-! ## Task state and the direct replay engine (`agent/loop.py`, `agent/replay.py`) -/

/-- `TaskStatus` from `api/models.py`. -/
inductive TaskStatus where
  | pending | running | completed | failed | cancelled
deriving Repr, DecidableEq, Inhabited

/-- A terminal task status. -/
def TaskStatus.isTerminal : TaskStatus → Bool
  | .completed | .failed | .cancelled => true
  | _ => false

/-- `TaskState` from `agent/loop.py`.  `cancelFlag` is the `_cancel` field;
`created_at` (an opaque timestamp, never read) is omitted. -/
structure TaskState where
  task_id : String
  instruction : String
  status : TaskStatus := .pending
  steps_completed : Nat := 0
  current_action : Option String := none
  result : Option String := none
  error : Option String := none
  cancelFlag : Bool := false
deriving Repr, DecidableEq, Inhabited

/-- `TaskState.cancel` from `agent/loop.py`: set the cooperative
cancellation flag (and nothing else). -/
def TaskState.cancel (t : TaskState) : TaskState := { t with cancelFlag := true }

/-- `_find_element` from `agent/replay.py` as a pure resolution function: the
locator fallback chain depends only on the recorded `ElementInfo`.  The
result is the 1-based index of the first applicable strategy, or `none`
when no locator applies.  (Locator construction itself does not touch the
page; the `try/except` around `get_by_role` is modelled as success.) -/
def find_element (el : ElementInfo) : Option Nat :=
  if el.tag = "" ∧ el.aria_label = "" ∧ el.text = "" ∧ el.role = "" then none
  else if el.role ≠ "" ∧ (el.aria_label ≠ "" ∨ el.text ≠ "") then some 1
  else if el.aria_label ≠ "" then some 2
  else if el.placeholder ≠ "" then some 3
  else if el.text ≠ "" ∧ el.role ≠ "" then some 4
  else if el.text ≠ "" then some 5
  else none

/-- Outcomes of the browser primitive calls a single replay step may issue,
one field per call site in `agent/replay.py` (`none` = the call succeeded,
`some e` = it raised an exception rendered as `e`). -/
structure StepFx where
  locClick : Option String := none      -- locator.click(timeout=5000)
  locFill : Option String := none       -- locator.fill(text)
  locKeyType : Option String := none    -- page.keyboard.type (contenteditable branch)
  coordClick : Option String := none    -- page.mouse.click(x, y) fallback
  coordKeyType : Option String := none  -- page.keyboard.type after coordinate click
  lastKeyType : Option String := none   -- page.keyboard.type last resort (type step)
  keyPress : Option String := none      -- page.keyboard.press (key step)
  gotoCall : Option String := none      -- page.goto (navigate step)
deriving Repr, DecidableEq, Inhabited

/-- `_do_click` from `agent/replay.py`: click via the locator chain, fall
back to coordinates; with neither, the step fails.  Exceptions raised by
the coordinate click propagate and are rendered by `_execute_step`. -/
def do_click (fx : StepFx) (step : WorkflowStep) : Option String :=
  let fallback : Option String :=
    match step.coordinates with
    | some _ => fx.coordClick
    | none => some "Could not find element and no coordinates available"
  match find_element step.element with
  | some _ =>
    match fx.locClick with
    | none => none
    | some _ => fallback
  | none => fallback

/-- `_do_type` from `agent/replay.py`: click the located field and fill it
(keystrokes for contenteditable), fall back to coordinate click plus
keystrokes, and as a last resort keystroke into the currently focused
element. -/
def do_type (fx : StepFx) (step : WorkflowStep) : Option String :=
  let fallback : Option String :=
    match step.coordinates with
    | some _ =>
      match fx.coordClick with
      | some e => some e
      | none => fx.coordKeyType
    | none => fx.lastKeyType
  match find_element step.element with
  | none => fallback
  | some _ =>
    match fx.locClick with
    | some _ => fallback
    | none =>
      match (if step.element.contenteditable then fx.locKeyType else fx.locFill) with
      | none => none
      | some _ => fallback

/-- `_normalize_key` from `agent/replay.py`. -/
def normalize_key (key : String) : String :=
  let k := key.toLower
  if k = "enter" then "Enter"
  else if k = "tab" then "Tab"
  else if k = "escape" then "Escape"
  else if k = "backspace" then "Backspace"
  else if k = "delete" then "Delete"
  else if k = "space" then " "
  else key

/-- `_do_key` from `agent/replay.py`: press the normalized key. -/
def do_key (fx : StepFx) (_step : WorkflowStep) : Option String := fx.keyPress

/-- `_execute_step` from `agent/replay.py`: dispatch on the step action;
every exception is caught and returned as an error string. -/
def execute_step (fx : StepFx) (step : WorkflowStep) : Option String :=
  if step.action = "click" then do_click fx step
  else if step.action = "type" then do_type fx step
  else if step.action = "key" then do_key fx step
  else if step.action = "navigate" then fx.gotoCall
  else some ("Unknown action: " ++ step.action)

/-- Result of a direct replay run: the final task state, the sequence of
task snapshots broadcast over the websocket, and the indices of the steps
that were actually submitted to `_execute_step`. -/
structure RunOutcome where
  task : TaskState
  trace : List TaskState
  executed : List Nat
deriving Repr, DecidableEq, Inhabited

/-- The per-step loop of `run_workflow_direct` from `agent/replay.py`.
`fx i` gives the primitive outcomes for step index `i`; `cancelAt i` is the
value of the externally set cancellation flag when step `i` is about to
start (cancellation is cooperative, polled at the top of each iteration);
`total` is the workflow's full step count. -/
def runSteps (fx : Nat → StepFx) (cancelAt : Nat → Bool) (total : Nat) :
    List WorkflowStep → Nat → TaskState → RunOutcome
  | [], _, t =>
    let t := { t with status := .completed,
                      result := some ("Workflow completed (" ++ toString total ++ " steps)"),
                      steps_completed := total }
    { task := t, trace := [t], executed := [] }
  | step :: rest, i, t =>
    if cancelAt i then
      let t := { t with status := .cancelled,
                        result := some ("Cancelled after " ++ toString i ++ " steps") }
      { task := t, trace := [t], executed := [] }
    else
      let t := { t with current_action :=
                          some (if step.description ≠ "" then step.description else step.action),
                        steps_completed := i + 1 }
      match execute_step (fx i) step with
      | some e =>
        let t' := { t with status := .failed,
                           error := some ("Step " ++ toString (i + 1) ++ " failed: " ++ e) }
        { task := t', trace := [t, t'], executed := [i] }
      | none =>
        let out := runSteps fx cancelAt total rest (i + 1) t
        { out with trace := t :: out.trace, executed := i :: out.executed }

/-- `run_workflow_direct` from `agent/replay.py`: mark the task running,
then drive the workflow's steps through `runSteps`. -/
def run_workflow_direct (fx : Nat → StepFx) (cancelAt : Nat → Bool)
    (workflow : Workflow) (task : TaskState) : RunOutcome :=
  let t := { task with status := .running }
  let out := runSteps fx cancelAt workflow.steps.length workflow.steps 0 t
  { out with trace := t :: out.trace }

/-! ## Action executor (`agent/actions.py`) -/

/-- `AgentAction` from `llm/base.py`.  `start_coordinate` and `duration` are
the two `raw` dictionary keys the executor reads (`raw.get(...)`); the
other `raw` content is never used. -/
structure AgentAction where
  tool_use_id : String
  action : String
  coordinate : Option (Int × Int) := none
  text : Option String := none
  scroll_direction : Option String := none
  scroll_amount : Option Int := none
  start_coordinate : Option (Int × Int) := none
  duration : Option Int := none
deriving Repr, DecidableEq, Inhabited

/-- Outcomes of the browser primitive calls one executed action may issue,
one field per call site in `agent/actions.py`. -/
structure PrimFx where
  mouseClick : Option String := none     -- page.mouse.click / dblclick
  mouseMove : Option String := none      -- page.mouse.move (first call)
  mouseDown : Option String := none      -- page.mouse.down
  mouseMove2 : Option String := none     -- page.mouse.move (second call, drag)
  mouseUp : Option String := none        -- page.mouse.up
  wheel : Option String := none          -- page.mouse.wheel
  keyboardType : Option String := none   -- page.keyboard.type
  keyboardPress : Option String := none  -- page.keyboard.press
  keyDown : Option String := none        -- page.keyboard.down
  keyUp : Option String := none          -- page.keyboard.up
deriving Repr, DecidableEq, Inhabited

/-- `_normalize_key_combo` from `agent/actions.py`: map each `+`-separated
token to the Playwright key name. -/
def normalize_key_combo (combo : String) : String :=
  let repl (p : String) : String :=
    let q := p.trim.toLower
    if q = "ctrl" then "Control"
    else if q = "cmd" then "Meta"
    else if q = "super" then "Meta"
    else if q = "alt" then "Alt"
    else if q = "shift" then "Shift"
    else if q = "enter" then "Enter"
    else if q = "return" then "Enter"
    else if q = "tab" then "Tab"
    else if q = "escape" then "Escape"
    else if q = "esc" then "Escape"
    else if q = "backspace" then "Backspace"
    else if q = "delete" then "Delete"
    else if q = "space" then " "
    else if q = "arrowup" then "ArrowUp"
    else if q = "arrowdown" then "ArrowDown"
    else if q = "arrowleft" then "ArrowLeft"
    else if q = "arrowright" then "ArrowRight"
    else p.trim
  String.intercalate "+" (((combo.splitOn "+").map repl))

/-- Bind together a sequence of primitive calls: the first exception
propagates (to be caught in `ActionExecutor.execute`). -/
def primSeq : List (Option String) → Except String Unit
  | [] => .ok ()
  | none :: rest => primSeq rest
  | some e :: _ => .error e

/-- `_screen_coords` from `agent/actions.py`: scale the action's coordinate
to viewport space, raising a `BrowserError` when the action has none.
`scale` abstracts `ScreenshotCapture.scale_coordinates_to_screen`. -/
def screen_coords (scale : Int × Int → Int × Int) (a : AgentAction) :
    Except String (Int × Int) :=
  match a.coordinate with
  | none => .error ("Action " ++ a.action ++ " requires coordinates")
  | some c => .ok (scale c)

/-- Python string truthiness for an optional text field (`if action.text:`):
present and non-empty. -/
def optTruthy : Option String → Bool
  | some s => s ≠ ""
  | none => false

/-- The handler body for one action verb, as dispatched by
`ActionExecutor.execute` via `getattr(self, f"_do_{name}")` in
`agent/actions.py`.  Returns `none` when the verb has no handler; an
`Except.error` is an exception escaping the handler. -/
def handlerRun (scale : Int × Int → Int × Int) (fx : PrimFx) (a : AgentAction) :
    Option (Except String Unit) :=
  if a.action = "screenshot" then some (.ok ())
  else if a.action = "left_click" ∨ a.action = "right_click" ∨
          a.action = "middle_click" ∨ a.action = "double_click" ∨
          a.action = "triple_click" then
    some (do let _ ← screen_coords scale a; primSeq [fx.mouseClick])
  else if a.action = "mouse_move" then
    some (do let _ ← screen_coords scale a; primSeq [fx.mouseMove])
  else if a.action = "left_click_drag" then
    some (
      match a.start_coordinate.orElse (fun _ => a.coordinate), a.coordinate with
      | some _, some _ =>
        primSeq [fx.mouseMove, fx.mouseDown, fx.mouseMove2, fx.mouseUp]
      | _, _ => .ok ())
  else if a.action = "type" then
    some (if optTruthy a.text then primSeq [fx.keyboardType] else .ok ())
  else if a.action = "key" then
    some (if optTruthy a.text then primSeq [fx.keyboardPress] else .ok ())
  else if a.action = "scroll" then
    some (do let _ ← screen_coords scale a; primSeq [fx.mouseMove, fx.wheel])
  else if a.action = "wait" then some (.ok ())
  else if a.action = "hold_key" then
    some (if optTruthy a.text then primSeq [fx.keyDown, fx.keyUp] else .ok ())
  else none

/-- `ActionExecutor.execute` from `agent/actions.py`: dispatch to the verb's
handler; an unknown verb yields an explicit error string, and any exception
a handler raises is caught and converted to a descriptive error string.
Returns `none` on success. -/
def ActionExecutor.execute (scale : Int × Int → Int × Int) (fx : PrimFx)
    (a : AgentAction) : Option String :=
  match handlerRun scale fx a with
  | none => some ("Unknown action: " ++ a.action)
  | some (.ok _) => none
  | some (.error e) => some ("Action " ++ a.action ++ " failed: " ++ e)

/-! ## AI agent loop (`agent/loop.py`) -/

/-- A tool result sent back to the model (the provider-specific
`build_screenshot_result` / `build_error_result` dicts of `llm/base.py`,
modelled as constructors). -/
inductive ToolResult where
  | screenshotResult (tool_use_id : String) (b64 : String)
  | errorResult (tool_use_id : String) (message : String)
deriving Repr, DecidableEq, Inhabited

/-- A conversation message, as appended by `run_agent_loop`. -/
inductive Msg where
  | userInstruction (instruction : String) (screenshot : String)
  | assistant (step : Nat)
  | userResults (results : List ToolResult)
deriving Repr, DecidableEq, Inhabited

/-- Outcome of one `llm.send` call: either an exception, or a response with
a list of actions and an optional text (`AgentResponse`). -/
inductive LLMOutcome where
  | fail (message : String)
  | reply (actions : List AgentAction) (text : String)
deriving Repr, DecidableEq, Inhabited

/-- The external world of one agent-loop run: the model's reply per
iteration, the primitive outcomes per (iteration, action index), the
screenshot contents, and the externally set cancellation flag as seen at
the top of each iteration. -/
structure LoopFx where
  llm : Nat → LLMOutcome
  act : Nat → Nat → PrimFx
  scale : Int × Int → Int × Int
  screenshot : String
  cancelAt : Nat → Bool

/-- Mutable state of `run_agent_loop`, plus instrumentation: every broadcast
task snapshot, and the (iteration, action index) of every action actually
given to the executor. -/
structure LoopState where
  task : TaskState
  messages : List Msg
  recent : List String
  taskTrace : List TaskState
  executed : List (Nat × Nat)
deriving Repr, DecidableEq, Inhabited

/-- The action signature used for loop detection:
`f"{action.action}:{action.coordinate}:{action.text}"`. -/
def actionSig (a : AgentAction) : String :=
  let coordStr := match a.coordinate with
    | none => "None"
    | some (x, y) => "(" ++ toString x ++ ", " ++ toString y ++ ")"
  let textStr := match a.text with
    | none => "None"
    | some s => s
  a.action ++ ":" ++ coordStr ++ ":" ++ textStr

/-- Append a signature to the rolling window, keeping the last 6
(`recent_actions.append(...)`, then `pop(0)` when longer than 6). -/
def pushRecent (recent : List String) (sig : String) : List String :=
  let r := recent ++ [sig]
  if r.length > 6 then r.drop 1 else r

/-- `_is_stuck` from `agent/loop.py`: at least 4 entries and the last 4 all
identical. -/
def is_stuck (recent : List String) : Bool :=
  if recent.length < 4 then false
  else
    match recent.drop (recent.length - 4) with
    | [] => false
    | x :: xs => xs.all (· = x)

/-- The stuck-loop error message synthesized instead of executing a
repeated action. -/
def stuckMessage : String :=
  "You appear to be stuck repeating the same action. Try a completely different approach."

/-- The inner `for action in response.actions` loop of `run_agent_loop`:
process the remaining actions of iteration `stepIdx`, accumulating tool
results.  `k` is the index of the next action within the iteration. -/
def runActions (fx : LoopFx) (stepIdx : Nat) :
    List AgentAction → Nat → LoopState → List ToolResult → LoopState × List ToolResult
  | [], _, st, trs => (st, trs)
  | a :: rest, k, st, trs =>
    let t := { st.task with current_action := some a.action, steps_completed := stepIdx + 1 }
    let st := { st with task := t, taskTrace := st.taskTrace ++ [t] }
    if a.action = "screenshot" then
      runActions fx stepIdx rest (k + 1) st
        (trs ++ [.screenshotResult a.tool_use_id fx.screenshot])
    else
      let recent' := pushRecent st.recent (actionSig a)
      let st := { st with recent := recent' }
      if is_stuck recent' then
        runActions fx stepIdx rest (k + 1) st
          (trs ++ [.errorResult a.tool_use_id stuckMessage])
      else
        let err := ActionExecutor.execute fx.scale (fx.act stepIdx k) a
        let st := { st with executed := st.executed ++ [(stepIdx, k)] }
        match err with
        | some e => runActions fx stepIdx rest (k + 1) st (trs ++ [.errorResult a.tool_use_id e])
        | none =>
          runActions fx stepIdx rest (k + 1) st
            (trs ++ [.screenshotResult a.tool_use_id fx.screenshot])

/-- The outer `for step in range(max_steps)` loop of `run_agent_loop`,
iterating over the remaining step indices. -/
def runLoopSteps (fx : LoopFx) (maxSteps : Nat) :
    List Nat → LoopState → LoopState
  | [], st =>
    let t := { st.task with
                status := .failed,
                error := some ("Max steps (" ++ toString maxSteps ++
                               ") reached without completing the task") }
    { st with task := t, taskTrace := st.taskTrace ++ [t] }
  | stepIdx :: restSteps, st =>
    if fx.cancelAt stepIdx then
      let t := { st.task with
                  status := .cancelled,
                  result := some ("Cancelled after " ++ toString stepIdx ++ " steps") }
      { st with task := t, taskTrace := st.taskTrace ++ [t] }
    else
      match fx.llm stepIdx with
      | .fail msg =>
        let t := { st.task with status := .failed, error := some ("LLM error: " ++ msg) }
        { st with task := t, taskTrace := st.taskTrace ++ [t] }
      | .reply actions text =>
        let st := { st with messages := st.messages ++ [.assistant stepIdx] }
        if actions.isEmpty then
          let t := { st.task with
                      status := .completed,
                      result := some (if text ≠ "" then text else "Task completed"),
                      steps_completed := stepIdx + 1 }
          { st with task := t, taskTrace := st.taskTrace ++ [t] }
        else
          let (st, trs) := runActions fx stepIdx actions 0 st []
          let st := { st with messages := st.messages ++ [.userResults trs] }
          runLoopSteps fx maxSteps restSteps st

/-- `run_agent_loop` from `agent/loop.py`: mark the task running, send the
instruction plus an initial screenshot, then iterate up to `maxSteps`
model/action rounds. -/
def run_agent_loop (fx : LoopFx) (maxSteps : Nat) (task : TaskState) : LoopState :=
  let t := { task with status := .running }
  runLoopSteps fx maxSteps (List.range maxSteps)
    { task := t
      messages := [.userInstruction task.instruction fx.screenshot]
      recent := []
      taskTrace := [t]
      executed := [] }

/-! ## Parameter resolution and workflow instructions -/

/-- Modelled from the spec: the per-parameter value used for a run — the
caller-supplied value for the parameter's name, else its non-empty
`default`, else a missing-required-parameter error (the `ValueError` that
`api/routes.py` maps to a 422).  The `Workflow.resolve` method itself is
not under `src/`; only its callers are. -/
def resolveValues (params : List Parameter) (values : List (String × String)) :
    Except String (List (String × String)) :=
  match params with
  | [] => .ok []
  | p :: rest =>
    match lookupA values p.name, p.default with
    | some v, _ =>
      (resolveValues rest values).map (fun m => (p.name, v) :: m)
    | none, d =>
      if d ≠ "" then (resolveValues rest values).map (fun m => (p.name, d) :: m)
      else .error ("Missing required parameter: " ++ p.name)

/-- Left-to-right replacement of every occurrence of `pat` (Python
`str.replace`).  The fuel argument, instantiated with the text's length,
only makes the recursion structural; each step consumes at least one
character whenever `pat` is non-empty, as every pattern used here is. -/
def replaceCharsF (pat repl : List Char) : Nat → List Char → List Char
  | _, [] => []
  | 0, l => l
  | fuel + 1, x :: xs =>
    if pat.isPrefixOf (x :: xs) then
      repl ++ replaceCharsF pat repl fuel ((x :: xs).drop pat.length)
    else x :: replaceCharsF pat repl fuel xs

/-- `s.replace(pat, repl)` on strings. -/
def replaceAll (s pat repl : String) : String :=
  ⟨replaceCharsF pat.data repl.data s.data.length s.data⟩

/-- Substitute every `\x7b\x7bname\x7d\x7d` placeholder of the mapping in a
string. -/
def substPlaceholders (mapping : List (String × String)) (s : String) : String :=
  mapping.foldl (fun acc p => replaceAll acc ("\x7b\x7b" ++ p.1 ++ "\x7d\x7d") p.2) s

/-- Substitute the mapping's placeholders in one step's text and url. -/
def substStep (mapping : List (String × String)) (st : WorkflowStep) : WorkflowStep :=
  { st with text := substPlaceholders mapping st.text
            url := substPlaceholders mapping st.url }

/-- Modelled from the spec: `Workflow.resolve` — substitute the
`\x7b\x7bvar\x7d\x7d`-style placeholders in step text/url (and in the start
URL, which §4.5 calls "the resolved start URL"), producing a new `Workflow`
value and leaving every other field as stored. -/
def Workflow.resolve (w : Workflow) (values : List (String × String)) :
    Except String Workflow :=
  (resolveValues w.parameters values).map fun m =>
    { w with steps := w.steps.map (substStep m)
             start_url := substPlaceholders m w.start_url }

/-- Substring containment (Python `pat in s`). -/
def containsSub (s pat : String) : Bool := (afterSub pat.data s.data).isSome

/-- `_describe_element_detailed` from `agent/workflow.py`. -/
def describe_element_detailed (element : ElementInfo) : String :=
  let primary :=
    if element.aria_label ≠ "" then "the element labeled " ++ sq ++ element.aria_label ++ sq
    else if element.tooltip ≠ "" then "the element with tooltip " ++ sq ++ element.tooltip ++ sq
    else if element.title ≠ "" then "the element titled " ++ sq ++ element.title ++ sq
    else if element.text ≠ "" then "the element with text " ++ sq ++ element.text.take 50 ++ sq
    else if element.role ≠ "" then "the " ++ element.role ++ " element"
    else "the " ++ (if element.tag ≠ "" then element.tag else "element")
  let identifiers := [primary]
  let identifiers :=
    -- Python checks `element.role not in str(identifiers)` — substring
    -- containment in the list's repr.
    if element.role ≠ "" ∧
        ¬ containsSub ("[" ++ sq ++ primary ++ sq ++ "]") element.role then
      identifiers ++ ["role: " ++ element.role]
    else identifiers
  let identifiers :=
    if element.parent_context ≠ "" then
      identifiers ++ ["inside the " ++ sq ++ element.parent_context ++ sq ++ " area"]
    else identifiers
  String.intercalate ", " identifiers

/-- `_describe_field` from `agent/workflow.py`. -/
def describe_field (element : ElementInfo) : String :=
  if element.aria_label ≠ "" then "the " ++ sq ++ element.aria_label ++ sq ++ " field"
  else if element.label ≠ "" then "the " ++ sq ++ element.label ++ sq ++ " field"
  else if element.placeholder ≠ "" then
    "the field with placeholder " ++ sq ++ element.placeholder ++ sq
  else if element.name ≠ "" then "the " ++ sq ++ element.name ++ sq ++ " field"
  else if element.parent_context ≠ "" then
    "the input field inside " ++ sq ++ element.parent_context ++ sq
  else "the text field"

/-- `Workflow._step_to_instruction` from `agent/workflow.py`. -/
def step_to_instruction (num : Nat) (step : WorkflowStep) : String :=
  if step.action = "click" then
    let target := describe_element_detailed step.element
    String.intercalate "\n"
      ([toString num ++ ". CLICK: " ++ target] ++
       match step.coordinates with
       | some (x, y) =>
         ["   (approximate position: x=" ++ toString x ++ ", y=" ++ toString y ++ ")"]
       | none => [])
  else if step.action = "type" then
    String.intercalate "\n"
      ([toString num ++ ". TYPE: " ++ sq ++ step.text ++ sq ++ " into " ++
        describe_field step.element] ++
       (if step.element.contenteditable then
          ["   (this is a rich text field, not a regular input)"] else []))
  else if step.action = "key" then
    toString num ++ ". PRESS: " ++ step.key ++ " key"
  else if step.action = "navigate" then
    toString num ++ ". NAVIGATE: Go to " ++ step.url
  else ""

/-- `Workflow.to_instruction` from `agent/workflow.py`: the natural-language
instruction handed to the AI replay mode. -/
def Workflow.to_instruction (w : Workflow) : String :=
  let lines :=
    [if w.description ≠ "" then "Task: " ++ w.description
     else "Task: Replay recorded workflow " ++ sq ++ w.name ++ sq] ++
    (if w.start_url ≠ "" then ["Starting page: " ++ w.start_url] else []) ++
    ["",
     "Follow these steps in order. Use the screenshot to find each element. " ++
       "The hints about screen position and element context should help you locate them.",
     ""] ++
    ((List.range w.steps.length).zip w.steps).map
      (fun p => step_to_instruction (p.1 + 1) p.2) ++
    ["",
     "After completing ALL steps above, report that the task is done. " ++
       "Do not add extra steps that were not listed."]
  String.intercalate "\n" lines

/-! ## Workflow run route (`api/routes.py`, `run_workflow`) -/

/-- The persisted workflows, keyed by name (the YAML files under the
workflow directory). -/
abbrev WorkflowStore := List (String × Workflow)

/-- The parameter-resolution prelude of the `run_workflow` route in
`api/routes.py`: resolve when the caller passed values, otherwise demand
that every parameter has a default and resolve with the empty mapping. -/
def resolveForRun (w : Workflow) (values : List (String × String)) :
    Except String Workflow :=
  if w.parameters ≠ [] ∧ values ≠ [] then w.resolve values
  else if w.parameters ≠ [] then
    let required := (w.parameters.filter (fun p => p.default = "")).map (·.name)
    if required ≠ [] then
      .error ("Missing required parameters: " ++ String.intercalate ", " required)
    else w.resolve []
  else .ok w

/-- The load-and-resolve part of the `run_workflow` route: look the workflow
up by name, resolve its parameters against the request, and hand the
resolved copy to the selected replay engine.  The route never writes the
store, so the (unchanged) store is returned alongside. -/
def run_workflow_route (store : WorkflowStore) (name : String)
    (values : List (String × String)) : Except String (Workflow × WorkflowStore) :=
  match lookupA store name with
  | none => .error ("Workflow " ++ sq ++ name ++ sq ++ " not found")
  | some w => (resolveForRun w values).map (fun resolved => (resolved, store))

/-! ## Batch orchestrator (`agent/batch.py`) and cancel routes -/

/-- `BatchRowResult` from `agent/batch.py`. -/
structure BatchRowResult where
  index : Nat
  parameters : List (String × String)
  status : String := "pending"
  task_id : String := ""
  error : String := ""
deriving Repr, DecidableEq, Inhabited

/-- `BatchState` from `agent/batch.py` (`cancelFlag` is `_cancel`). -/
structure BatchState where
  batch_id : String
  workflow_name : String
  mode : String
  rows : List (List (String × String))
  current_index : Nat := 0
  results : List BatchRowResult := []
  status : String := "pending"
  cancelFlag : Bool := false
deriving Repr, DecidableEq, Inhabited

/-- `BatchState.cancel`: set the cooperative cancellation flag only. -/
def BatchState.cancel (b : BatchState) : BatchState := { b with cancelFlag := true }

/-- Update the row result at index `i`. -/
def setRow (results : List BatchRowResult) (i : Nat)
    (f : BatchRowResult → BatchRowResult) : List BatchRowResult :=
  match results.get? i with
  | some r => results.set i (f r)
  | none => results

/-- The external world of one batch run: per-row primitive outcomes and task
ids, the per-row navigation outcome, and the cancellation flags as observed
at their polling points. -/
structure BatchFx where
  direct : Nat → Nat → StepFx
  taskCancel : Nat → Nat → Bool
  loopOf : Nat → LoopFx
  maxSteps : Nat
  taskIds : Nat → String
  goto : Nat → Option String
  batchCancelAt : Nat → Bool

/-- The `try`-block body of one row of `run_batch` from `agent/batch.py`:
resolve the row, create its task, navigate to the resolved start URL, run
the selected replay engine to completion and map the task outcome to the
row result.  Any exception (a resolution `ValueError` or a navigation
failure) is caught and recorded on the row. -/
def batchRowOutcome (fx : BatchFx) (workflow : Workflow) (total : Nat)
    (row : List (String × String)) (i : Nat) (b : BatchState) : BatchState :=
  match workflow.resolve row with
  | .error e =>
    { b with results := setRow b.results i
               (fun r => { r with status := "failed", error := e }) }
  | .ok resolved =>
    let tid := fx.taskIds i
    let b := { b with results := setRow b.results i (fun r => { r with task_id := tid }) }
    match (if resolved.start_url ≠ "" then fx.goto i else none) with
    | some e =>
      { b with results := setRow b.results i
                 (fun r => { r with status := "failed", error := e }) }
    | none =>
      let instruction :=
        if b.mode = "ai" then resolved.to_instruction
        else "Batch " ++ b.workflow_name ++ " [" ++ toString (i + 1) ++ "/" ++
             toString total ++ "]"
      let task : TaskState := { task_id := tid, instruction := instruction }
      let finalTask :=
        if b.mode = "ai" then (run_agent_loop (fx.loopOf i) fx.maxSteps task).task
        else (run_workflow_direct (fx.direct i) (fx.taskCancel i) resolved task).task
      if finalTask.status = .completed then
        { b with results := setRow b.results i
                   (fun r => { r with status := "completed" }) }
      else
        let err := match finalTask.error with
          | some e => if e ≠ "" then e else "Task did not complete"
          | none => "Task did not complete"
        { b with results := setRow b.results i
                   (fun r => { r with status := "failed", error := err }) }

/-- The per-row loop of `run_batch` from `agent/batch.py`.  Returns the
final batch state and the trace of broadcast batch snapshots. -/
def runBatchRows (fx : BatchFx) (workflow : Workflow) (total : Nat) :
    List (List (String × String)) → Nat → BatchState → BatchState × List BatchState
  | [], _, b =>
    let b := { b with status := "completed" }
    (b, [b])
  | row :: rest, i, b =>
    if fx.batchCancelAt i then
      let b := { b with
                  results := b.results.map (fun r =>
                    if r.index ≥ i then { r with status := "skipped" } else r),
                  status := "cancelled" }
      (b, [b])
    else
      let b := { b with current_index := i,
                        results := setRow b.results i (fun r => { r with status := "running" }) }
      let after := batchRowOutcome fx workflow total row i b
      let (bf, tr) := runBatchRows fx workflow total rest (i + 1) after
      (bf, b :: after :: tr)

/-- `run_batch` from `agent/batch.py`: mark the batch running and walk its
rows sequentially. -/
def run_batch (fx : BatchFx) (workflow : Workflow) (batch : BatchState) :
    BatchState × List BatchState :=
  let b := { batch with status := "running" }
  let (bf, tr) := runBatchRows fx workflow batch.rows.length batch.rows 0 b
  (bf, b :: tr)

/-- The in-memory task/batch registries of the API process
(`app.state.tasks` / `app.state.batches`). -/
structure Registry where
  tasks : List (String × TaskState)
  batches : List (String × BatchState)
deriving Repr, DecidableEq, Inhabited

/-- Replace the value stored under `k`. -/
def updateA {α : Type} (m : List (String × α)) (k : String) (v : α) :
    List (String × α) :=
  m.map (fun p => if p.1 = k then (k, v) else p)

/-- `cancel_task` from `api/routes.py`: look the task up and set its
cancellation flag. -/
def cancel_task_route (reg : Registry) (task_id : String) : Except String Registry :=
  match lookupA reg.tasks task_id with
  | none => .error "Task not found"
  | some t => .ok { reg with tasks := updateA reg.tasks task_id t.cancel }

/-- `cancel_batch` from `api/routes.py`: set the batch's cancellation flag
and, when the row at `current_index` already has an associated task, that
task's flag too. -/
def cancel_batch_route (reg : Registry) (batch_id : String) : Except String Registry :=
  match lookupA reg.batches batch_id with
  | none => .error "Batch not found"
  | some b =>
    let reg := { reg with batches := updateA reg.batches batch_id b.cancel }
    if b.results ≠ [] ∧ b.current_index < b.results.length then
      match b.results.get? b.current_index with
      | some current =>
        if current.task_id ≠ "" then
          match lookupA reg.tasks current.task_id with
          | some t =>
            .ok { reg with tasks := updateA reg.tasks current.task_id t.cancel }
          | none => .ok reg
        else .ok reg
      | none => .ok reg
    else .ok reg

/-! ## Statement vocabulary: predicates used to state the claims -/

/-- The action verbs that have a `_do_<verb>` handler in
`agent/actions.py`. -/
def knownVerbs : List String :=
  ["screenshot", "left_click", "right_click", "middle_click", "double_click",
   "triple_click", "mouse_move", "left_click_drag", "type", "key", "scroll",
   "wait", "hold_key"]

/-- A run-extension chain as the merge loop walks it: every event is either
a Backspace/Delete key (swallowed) or a `type` event matching the current
element of the run, which then becomes the current element. -/
def chainOk (el : ElementInfo) : List RawEvent → Bool
  | [] => true
  | e :: rest =>
    if isBackspaceKey e then chainOk el rest
    else decide (e.type = "type") && elements_match el e.element && chainOk e.element rest

/-- The element and text of the last `type` event of `e0 :: items` (the
run's final merged value). -/
def lastTyped (el : ElementInfo) (txt : String) : List RawEvent → ElementInfo × String
  | [] => (el, txt)
  | e :: rest =>
    if e.type = "type" then lastTyped e.element e.text rest else lastTyped el txt rest

/-- The events after the run stop its extension: the next event (if any) is
neither a Backspace/Delete key nor a `type` event matching the run's final
element. -/
def stopsRun (el : ElementInfo) : List RawEvent → Bool
  | [] => true
  | e :: _ => !(isBackspaceKey e) && !(decide (e.type = "type") && elements_match el e.element)

/-- A `type` step on field identity `fid`. -/
def isTypeFid (fid : String) (s : WorkflowStep) : Bool :=
  s.action = "type" ∧ fieldId s.element = fid

/-- A `click` step on field identity `fid`. -/
def isClickFid (fid : String) (s : WorkflowStep) : Bool :=
  s.action = "click" ∧ fieldId s.element = fid

/-- The text of the last `type` step on field identity `fid`. -/
def lastTypeText (fid : String) : List WorkflowStep → Option String
  | [] => none
  | s :: rest =>
    match lastTypeText fid rest with
    | some t => some t
    | none => if isTypeFid fid s then some s.text else none

/-- The number of `click` steps on `fid` occurring before the first `type`
step on `fid`. -/
def clicksBeforeType (fid : String) : List WorkflowStep → Nat
  | [] => 0
  | s :: rest =>
    if isTypeFid fid s then 0
    else (if isClickFid fid s then 1 else 0) + clicksBeforeType fid rest


/-! ## Shared helper lemmas -/

theorem lookupA_updateA_self {α : Type} (m : List (String × α)) (k : String)
    (v b : α) (h : lookupA m k = some b) : lookupA (updateA m k v) k = some v := by
  induction m with
  | nil => simp [lookupA] at h
  | cons p rest ih =>
    by_cases hk : p.1 = k
    · simp [updateA, lookupA, hk]
    · simp only [lookupA, if_neg hk] at h
      simp only [updateA, List.map_cons, if_neg hk, lookupA]
      exact ih h

theorem lookupA_updateA_ne {α : Type} (m : List (String × α)) (k k' : String)
    (v : α) (h : k' ≠ k) : lookupA (updateA m k v) k' = lookupA m k' := by
  induction m with
  | nil => rfl
  | cons p rest ih =>
    by_cases hk : p.1 = k
    · simp only [updateA, List.map_cons, if_pos hk, lookupA]
      rw [if_neg (fun hkk : k = k' => h hkk.symm),
        if_neg (fun hp : p.1 = k' => h (hp.symm.trans hk))]
      exact ih
    · simp only [updateA, List.map_cons, if_neg hk, lookupA]
      by_cases hp : p.1 = k'
      · rw [if_pos hp, if_pos hp]
      · rw [if_neg hp, if_neg hp]; exact ih

/-! ## C9: the action executor returns error strings, never raises -/

/-- C9: for every action, `ActionExecutor.execute` is a total function into
`Option String` (success or error string — it cannot raise): a verb with no
handler yields `"Unknown action: <name>"`, a handler that raises an
exception `e` yields the descriptive string `"Action <name> failed: <e>"`,
and a handler that finishes yields `none`. -/
theorem C9_executor_soft_failure (scale : Int × Int → Int × Int) (fx : PrimFx)
    (a : AgentAction) :
    (a.action ∉ knownVerbs →
      ActionExecutor.execute scale fx a = some ("Unknown action: " ++ a.action)) ∧
    (∀ e, handlerRun scale fx a = some (.error e) →
      ActionExecutor.execute scale fx a = some ("Action " ++ a.action ++ " failed: " ++ e)) ∧
    (∀ u, handlerRun scale fx a = some (.ok u) →
      ActionExecutor.execute scale fx a = none) := by
  refine ⟨fun h => ?_, fun e he => ?_, fun u hu => ?_⟩
  · have hnone : handlerRun scale fx a = none := by
      simp only [knownVerbs, List.mem_cons, List.not_mem_nil, or_false, not_or] at h
      obtain ⟨n1, n2, n3, n4, n5, n6, n7, n8, n9, n10, n11, n12, n13⟩ := h
      simp only [handlerRun, n1, n2, n3, n4, n5, n6, n7, n8, n9, n10, n11, n12, n13,
        or_self, if_false, ite_false]
    unfold ActionExecutor.execute
    rw [hnone]
  · unfold ActionExecutor.execute
    rw [he]
  · unfold ActionExecutor.execute
    rw [hu]

/-- Witness for C9 at concrete actions: an unknown verb, a handler that
raises (a click without coordinates), and a successful handler. -/
theorem C9_executor_soft_failure_witness :
    ActionExecutor.execute id { } { tool_use_id := "t1", action := "frobnicate" } =
      some "Unknown action: frobnicate" ∧
    ActionExecutor.execute id { } { tool_use_id := "t2", action := "left_click" } =
      some "Action left_click failed: Action left_click requires coordinates" ∧
    ActionExecutor.execute id { } { tool_use_id := "t3", action := "wait" } = none := by
  refine ⟨?_, ?_, ?_⟩
  · exact (C9_executor_soft_failure id { } _).1 (by decide)
  · exact (C9_executor_soft_failure id { } _).2.1
      "Action left_click requires coordinates" rfl
  · exact (C9_executor_soft_failure id { } _).2.2 () rfl

/-! ## C10: cancelling a batch -/

/-- C10: cancelling a batch through the API sets the batch's cooperative
cancellation flag and, when the row at `current_index` already has an
associated task, that task's flag too; the call changes no status field of
the batch, its rows, or the task, and leaves every other registry entry
alone.  A set flag is then observed at the run's next cooperative poll:
the direct-replay loop stops with `cancelled` before executing another
step. -/
theorem C10_cancel_batch_sets_flags (reg reg' : Registry) (bid : String)
    (b : BatchState)
    (hb : lookupA reg.batches bid = some b)
    (hout : cancel_batch_route reg bid = .ok reg') :
    lookupA reg'.batches bid = some b.cancel ∧
    b.cancel.status = b.status ∧ b.cancel.results = b.results ∧
    b.cancel.current_index = b.current_index ∧ b.cancel.cancelFlag = true ∧
    (∀ current t, b.results.get? b.current_index = some current →
      current.task_id ≠ "" → lookupA reg.tasks current.task_id = some t →
      lookupA reg'.tasks current.task_id = some t.cancel ∧
      t.cancel.status = t.status ∧ t.cancel.steps_completed = t.steps_completed ∧
      t.cancel.result = t.result ∧ t.cancel.error = t.error ∧
      t.cancel.current_action = t.current_action ∧ t.cancel.cancelFlag = true) ∧
    (∀ k, k ≠ bid → lookupA reg'.batches k = lookupA reg.batches k) ∧
    (∀ k, (∀ current, b.results.get? b.current_index = some current →
             k ≠ current.task_id) →
      lookupA reg'.tasks k = lookupA reg.tasks k) ∧
    (∀ sfx cAt total s rest i t0, (∀ j, cAt j = true) →
      (runSteps sfx cAt total (s :: rest) i t0).task.status = .cancelled ∧
      (runSteps sfx cAt total (s :: rest) i t0).executed = []) := by
  have hcancelled : ∀ (sfx : Nat → StepFx) (cAt : Nat → Bool) total s
      (rest : List WorkflowStep) i t0, (∀ j, cAt j = true) →
      (runSteps sfx cAt total (s :: rest) i t0).task.status = .cancelled ∧
      (runSteps sfx cAt total (s :: rest) i t0).executed = [] := by
    intro sfx cAt total s rest i t0 hc
    simp [runSteps, hc i]
  simp only [cancel_batch_route, hb] at hout
  by_cases hres : b.results ≠ [] ∧ b.current_index < b.results.length
  · rw [if_pos hres] at hout
    cases hget : b.results.get? b.current_index with
    | none =>
      simp only [hget] at hout
      cases hout
      refine ⟨lookupA_updateA_self _ _ _ _ hb, rfl, rfl, rfl, rfl, ?_, ?_, ?_, ?_⟩
      · intro current t hcur; exact Option.noConfusion hcur
      · intro k hk; exact lookupA_updateA_ne _ _ _ _ hk
      · intro k _; rfl
      · exact hcancelled
    | some current =>
      simp only [hget] at hout
      by_cases htid : current.task_id ≠ ""
      · rw [if_pos htid] at hout
        cases hlookt : lookupA reg.tasks current.task_id with
        | none =>
          simp only [hlookt] at hout
          cases hout
          refine ⟨lookupA_updateA_self _ _ _ _ hb, rfl, rfl, rfl, rfl, ?_, ?_, ?_, ?_⟩
          · intro c t hcur _ hlt
            cases hcur
            rw [hlookt] at hlt
            exact Option.noConfusion hlt
          · intro k hk; exact lookupA_updateA_ne _ _ _ _ hk
          · intro k _; rfl
          · exact hcancelled
        | some t =>
          simp only [hlookt] at hout
          cases hout
          refine ⟨lookupA_updateA_self _ _ _ _ hb, rfl, rfl, rfl, rfl, ?_, ?_, ?_, ?_⟩
          · intro c t' hcur _ hlt
            cases hcur
            rw [hlookt] at hlt
            cases hlt
            exact ⟨lookupA_updateA_self _ _ _ _ hlookt, rfl, rfl, rfl, rfl, rfl, rfl⟩
          · intro k hk; exact lookupA_updateA_ne _ _ _ _ hk
          · intro k hk
            exact lookupA_updateA_ne _ _ _ _ (hk current rfl)
          · exact hcancelled
      · rw [if_neg htid] at hout
        cases hout
        refine ⟨lookupA_updateA_self _ _ _ _ hb, rfl, rfl, rfl, rfl, ?_, ?_, ?_, ?_⟩
        · intro c t hcur hne _
          cases hcur
          exact absurd hne htid
        · intro k hk; exact lookupA_updateA_ne _ _ _ _ hk
        · intro k _; rfl
        · exact hcancelled
  · rw [if_neg hres] at hout
    cases hout
    have hnone : b.results.get? b.current_index = none := by
      rcases Decidable.not_and_iff_or_not.mp hres with h | h
      · rw [Decidable.not_not.mp h]; rfl
      · exact List.get?_eq_none.mpr (Nat.le_of_not_lt h)
    refine ⟨lookupA_updateA_self _ _ _ _ hb, rfl, rfl, rfl, rfl, ?_, ?_, ?_, ?_⟩
    · intro current t hcur; rw [hnone] at hcur; cases hcur
    · intro k hk; exact lookupA_updateA_ne _ _ _ _ hk
    · intro k _; rfl
    · exact hcancelled

/-- Witness for C10: a one-row batch whose current row has an in-flight
task; cancelling sets both cancellation flags and changes no status. -/
theorem C10_cancel_batch_sets_flags_witness :
    cancel_batch_route
      { tasks := [("t1", { task_id := "t1", instruction := "row", status := .running })],
        batches := [("b1",
          { batch_id := "b1", workflow_name := "wf", mode := "direct", rows := [[]],
            current_index := 0,
            results := [{ index := 0, parameters := [], status := "running",
                          task_id := "t1" }],
            status := "running" })] } "b1" =
      .ok { tasks := [("t1", { task_id := "t1", instruction := "row",
                               status := .running, cancelFlag := true })],
            batches := [("b1",
              { batch_id := "b1", workflow_name := "wf", mode := "direct", rows := [[]],
                current_index := 0,
                results := [{ index := 0, parameters := [], status := "running",
                              task_id := "t1" }],
                status := "running", cancelFlag := true })] } ∧
    lookupA
      ({ tasks := [("t1", { task_id := "t1", instruction := "row",
                            status := .running, cancelFlag := true })],
         batches := [("b1",
           { batch_id := "b1", workflow_name := "wf", mode := "direct", rows := [[]],
             current_index := 0,
             results := [{ index := 0, parameters := [], status := "running",
                           task_id := "t1" }],
             status := "running", cancelFlag := true })] } : Registry).tasks "t1" =
      some { task_id := "t1", instruction := "row", status := .running,
             cancelFlag := true } := by
  have h := C10_cancel_batch_sets_flags
    { tasks := [("t1", { task_id := "t1", instruction := "row", status := .running })],
      batches := [("b1",
        { batch_id := "b1", workflow_name := "wf", mode := "direct", rows := [[]],
          current_index := 0,
          results := [{ index := 0, parameters := [], status := "running",
                        task_id := "t1" }],
          status := "running" })] }
    { tasks := [("t1", { task_id := "t1", instruction := "row",
                         status := .running, cancelFlag := true })],
      batches := [("b1",
        { batch_id := "b1", workflow_name := "wf", mode := "direct", rows := [[]],
          current_index := 0,
          results := [{ index := 0, parameters := [], status := "running",
                        task_id := "t1" }],
          status := "running", cancelFlag := true })] }
    "b1" _ rfl rfl
  exact ⟨rfl, (h.2.2.2.2.2.1 _
    { task_id := "t1", instruction := "row", status := .running }
    rfl (by decide) rfl).1⟩

/-! ## C1: parameter resolution returns a new workflow -/

/-- C1 (the `Workflow.resolve` method is not under `src/`; it is modelled
from the spec, see `Workflow.resolve`): for a stored workflow with named
parameters and a mapping that resolves, the `run_workflow` route
substitutes the placeholders of the mapping in step text/url (and the
start URL), returns that resolved copy, and leaves the store — and hence
the stored workflow with its name, steps, start URL and parameters —
unchanged. -/
theorem C1_resolution_new_workflow (store : WorkflowStore) (name : String)
    (vals : List (String × String)) (w : Workflow) (m : List (String × String))
    (hlook : lookupA store name = some w)
    (hparams : w.parameters ≠ [])
    (hvals : vals ≠ [])
    (hm : resolveValues w.parameters vals = .ok m) :
    w.resolve vals =
      .ok { w with steps := w.steps.map (substStep m),
                   start_url := substPlaceholders m w.start_url } ∧
    run_workflow_route store name vals =
      .ok ({ w with steps := w.steps.map (substStep m),
                    start_url := substPlaceholders m w.start_url }, store) ∧
    (∀ resolved store', run_workflow_route store name vals = .ok (resolved, store') →
      store' = store ∧ resolved.name = w.name ∧ resolved.description = w.description ∧
      resolved.parameters = w.parameters ∧ resolved.recorded_at = w.recorded_at ∧
      resolved.steps = w.steps.map (substStep m) ∧
      resolved.start_url = substPlaceholders m w.start_url) := by
  have hres : w.resolve vals =
      .ok { w with steps := w.steps.map (substStep m),
                   start_url := substPlaceholders m w.start_url } := by
    unfold Workflow.resolve
    rw [hm]
    rfl
  have hroute : run_workflow_route store name vals =
      .ok ({ w with steps := w.steps.map (substStep m),
                    start_url := substPlaceholders m w.start_url }, store) := by
    simp only [run_workflow_route, hlook, resolveForRun, if_pos (And.intro hparams hvals),
      hres, Except.map]
  refine ⟨hres, hroute, fun resolved store' h => ?_⟩
  rw [hroute] at h
  cases h
  exact ⟨rfl, rfl, rfl, rfl, rfl, rfl, rfl⟩

/-- Witness for C1: a one-parameter workflow whose step text and start URL
carry a placeholder; resolution substitutes the supplied value and hands
back the untouched store. -/
theorem C1_resolution_new_workflow_witness :
    run_workflow_route
      [("greet",
        { name := "greet", start_url := "https://mail.example/\x7b\x7buser\x7d\x7d",
          steps := [{ action := "type", text := "Hello \x7b\x7buser\x7d\x7d",
                      element := { aria_label := "To" } }],
          parameters := [{ name := "user" }] })] "greet" [("user", "Ada")] =
      .ok ({ name := "greet", start_url := "https://mail.example/Ada",
             steps := [{ action := "type", text := "Hello Ada",
                         element := { aria_label := "To" } }],
             parameters := [{ name := "user" }] },
           [("greet",
             { name := "greet", start_url := "https://mail.example/\x7b\x7buser\x7d\x7d",
               steps := [{ action := "type", text := "Hello \x7b\x7buser\x7d\x7d",
                           element := { aria_label := "To" } }],
               parameters := [{ name := "user" }] })]) := by
  have h := C1_resolution_new_workflow
    [("greet",
      { name := "greet", start_url := "https://mail.example/\x7b\x7buser\x7d\x7d",
        steps := [{ action := "type", text := "Hello \x7b\x7buser\x7d\x7d",
                    element := { aria_label := "To" } }],
        parameters := [{ name := "user" }] })] "greet" [("user", "Ada")]
    { name := "greet", start_url := "https://mail.example/\x7b\x7buser\x7d\x7d",
      steps := [{ action := "type", text := "Hello \x7b\x7buser\x7d\x7d",
                  element := { aria_label := "To" } }],
      parameters := [{ name := "user" }] }
    [("user", "Ada")] rfl (by decide) (by decide) rfl
  rw [h.2.1]
  rfl

/-! ## C2: direct replay failure handling -/

/-- The first-failure behaviour of the per-step replay loop: when the steps
before position `pre.length` all succeed and the step there fails with
`e`, the run ends `failed`, the error names the 1-based step index and
`e`, and exactly the steps up to and including the failing one were
submitted for execution. -/
theorem runSteps_abort (fx : Nat → StepFx) (total : Nat) :
    ∀ (pre : List WorkflowStep) (failStep : WorkflowStep) (post : List WorkflowStep)
      (i : Nat) (t : TaskState) (e : String),
      (∀ k (hk : k < pre.length), execute_step (fx (i + k)) (pre.get ⟨k, hk⟩) = none) →
      execute_step (fx (i + pre.length)) failStep = some e →
      (runSteps fx (fun _ => false) total (pre ++ failStep :: post) i t).task.status =
        .failed ∧
      (runSteps fx (fun _ => false) total (pre ++ failStep :: post) i t).task.error =
        some ("Step " ++ toString (i + pre.length + 1) ++ " failed: " ++ e) ∧
      (runSteps fx (fun _ => false) total (pre ++ failStep :: post) i t).executed =
        List.range' i (pre.length + 1) := by
  intro pre
  induction pre with
  | nil =>
    intro failStep post i t e _ hfail
    simp only [List.length_nil, Nat.add_zero] at hfail
    simp only [List.nil_append, runSteps, hfail, Bool.false_eq_true, if_false]
    simp [List.range'_one]
  | cons s pre ih =>
    intro failStep post i t e hsucc hfail
    have h0 : execute_step (fx i) s = none := by
      have := hsucc 0 (by simp)
      simpa using this
    have hsucc' : ∀ k (hk : k < pre.length),
        execute_step (fx (i + 1 + k)) (pre.get ⟨k, hk⟩) = none := by
      intro k hk
      have := hsucc (k + 1) (by simpa using Nat.succ_lt_succ hk)
      rw [show i + (k + 1) = i + 1 + k by omega] at this
      simpa using this
    have hfail' : execute_step (fx (i + 1 + pre.length)) failStep = some e := by
      rw [show i + 1 + pre.length = i + (s :: pre).length by simp; omega]
      exact hfail
    have hrec := ih failStep post (i + 1)
      { t with current_action :=
                 some (if s.description ≠ "" then s.description else s.action),
               steps_completed := i + 1 } e hsucc' hfail'
    simp only [List.cons_append, runSteps, h0, Bool.false_eq_true, if_false]
    refine ⟨hrec.1, ?_, ?_⟩
    · rw [show i + (s :: pre).length + 1 = i + 1 + pre.length + 1 by simp; omega]
      exact hrec.2.1
    · rw [show (s :: pre).length + 1 = pre.length + 1 + 1 by simp, List.range'_succ]
      exact congrArg (List.cons i) hrec.2.2

/-- C2 (corrected): a `click` step whose element the locator fallback chain
cannot resolve and that carries no coordinates fails (a `type` step in
that situation instead falls back to keystroking into the currently
focused element); and every step failure ends the run with status
`failed`, an error naming the 1-based step index and the underlying error
text, with no step after the failing one submitted for execution. -/
theorem C2_unresolvable_step_aborts_run :
    (∀ (fx : StepFx) (step : WorkflowStep), step.action = "click" →
      find_element step.element = none → step.coordinates = none →
      execute_step fx step = some "Could not find element and no coordinates available") ∧
    (∀ (fx : Nat → StepFx) (total : Nat) (pre : List WorkflowStep)
       (failStep : WorkflowStep) (post : List WorkflowStep) (i : Nat)
       (t : TaskState) (e : String),
      (∀ k (hk : k < pre.length), execute_step (fx (i + k)) (pre.get ⟨k, hk⟩) = none) →
      execute_step (fx (i + pre.length)) failStep = some e →
      (runSteps fx (fun _ => false) total (pre ++ failStep :: post) i t).task.status =
        .failed ∧
      (runSteps fx (fun _ => false) total (pre ++ failStep :: post) i t).task.error =
        some ("Step " ++ toString (i + pre.length + 1) ++ " failed: " ++ e) ∧
      (runSteps fx (fun _ => false) total (pre ++ failStep :: post) i t).executed =
        List.range' i (pre.length + 1)) := by
  constructor
  · intro fx step ha hfind hcoord
    simp [execute_step, ha, do_click, hfind, hcoord]
  · intro fx total pre failStep post i t e hsucc hfail
    exact runSteps_abort fx total pre failStep post i t e hsucc hfail

/-- Witness for C2 on the spec's scenario 3: a 3-step workflow whose second
step is an unresolvable click without coordinates; the run fails at step 2
and step 3 is never executed. -/
theorem C2_unresolvable_step_aborts_run_witness :
    execute_step { } { action := "click" } =
      some "Could not find element and no coordinates available" ∧
    (runSteps (fun _ => { }) (fun _ => false) 3
        [{ action := "key", key := "Enter" }, { action := "click" },
         { action := "key", key := "Tab" }] 0
        { task_id := "t0", instruction := "replay", status := .running }).task.status =
      .failed ∧
    (runSteps (fun _ => { }) (fun _ => false) 3
        [{ action := "key", key := "Enter" }, { action := "click" },
         { action := "key", key := "Tab" }] 0
        { task_id := "t0", instruction := "replay", status := .running }).task.error =
      some "Step 2 failed: Could not find element and no coordinates available" ∧
    (runSteps (fun _ => { }) (fun _ => false) 3
        [{ action := "key", key := "Enter" }, { action := "click" },
         { action := "key", key := "Tab" }] 0
        { task_id := "t0", instruction := "replay", status := .running }).executed =
      [0, 1] := by
  have h1 := C2_unresolvable_step_aborts_run.1 { } { action := "click" } rfl rfl rfl
  have h2 := C2_unresolvable_step_aborts_run.2 (fun _ => { }) 3
    [{ action := "key", key := "Enter" }] { action := "click" }
    [{ action := "key", key := "Tab" }] 0
    { task_id := "t0", instruction := "replay", status := .running }
    "Could not find element and no coordinates available"
    (by intro k hk
        simp only [List.length_cons, List.length_nil] at hk
        have hk0 : k = 0 := by omega
        subst hk0; rfl)
    rfl
  simp only [List.cons_append, List.nil_append] at h2
  refine ⟨h1, h2.1, ?_, ?_⟩
  · rw [h2.2.1]; rfl
  · rw [h2.2.2]; rfl

/-- Counterexample for C2 as stated: a `type` step whose element cannot be
resolved and that carries no coordinates does not fail — `_do_type` falls
back to keystroking into the currently focused element and the step
succeeds. -/
theorem C2_unresolvable_step_aborts_run_counterexample :
    find_element ({ } : ElementInfo) = none ∧
    ({ action := "type", text := "hi" } : WorkflowStep).coordinates = none ∧
    execute_step { } { action := "type", text := "hi" } = none := by decide

/-! ## C6: the ephemeral-navigation filter -/

theorem takeUntilChar_not_mem (c : Char) (b : List Char) (hb : c ∉ b) :
    takeUntilChar c b = b := by
  induction b with
  | nil => rfl
  | cons x xs ih =>
    simp only [takeUntilChar]
    rw [if_neg (fun h : x = c => hb (h ▸ List.mem_cons_self x xs)),
      ih (fun h => hb (List.mem_cons_of_mem x h))]

theorem takeUntilChar_append (c : Char) (b rest : List Char) (hb : c ∉ b) :
    takeUntilChar c (b ++ c :: rest) = b := by
  induction b with
  | nil => simp [takeUntilChar]
  | cons x xs ih =>
    simp only [List.cons_append, takeUntilChar, List.append_eq]
    rw [if_neg (fun h : x = c => hb (h ▸ List.mem_cons_self x xs)),
      ih (fun h => hb (List.mem_cons_of_mem x h))]

theorem afterChar_append (c : Char) (b rest : List Char) (hb : c ∉ b) :
    afterChar c (b ++ c :: rest) = some rest := by
  induction b with
  | nil => simp [afterChar]
  | cons x xs ih =>
    simp only [List.cons_append, afterChar, List.append_eq]
    rw [if_neg (fun h : x = c => hb (h ▸ List.mem_cons_self x xs)),
      ih (fun h => hb (List.mem_cons_of_mem x h))]

theorem afterSub_self_append (pat l : List Char) (h : pat ≠ []) :
    afterSub pat (pat ++ l) = some l := by
  cases pat with
  | nil => cases h rfl
  | cons p ps =>
    simp only [List.cons_append, afterSub, List.append_eq]
    rw [if_pos (List.isPrefixOf_iff_prefix.mpr (by
      rw [← List.cons_append]; exact List.prefix_append _ _))]
    rw [← List.cons_append, List.drop_left]

/-- For a start URL without `#` in it, a navigation to
`start ++ "#compose=" ++ token` is ephemeral exactly when the token is
longer than 20 characters. -/
theorem ephemeral_compose (b token : String) (hb : '#' ∉ b.data) :
    is_ephemeral_navigation (b ++ "#compose=" ++ token) b =
      decide (token.length > 20) := by
  have hdata : (b ++ "#compose=" ++ token).data =
      b.data ++ '#' :: ("compose=".data ++ token.data) := by
    rw [String.data_append, String.data_append,
      show ("#compose=" : String).data = '#' :: "compose=".data from rfl,
      List.append_assoc, List.cons_append]
  have hbase : (if b ≠ "" then takeUntilChar '#' b.data else []) = b.data := by
    by_cases hbe : b = ""
    · subst hbe; simp
    · rw [if_pos hbe, takeUntilChar_not_mem _ _ hb]
  unfold is_ephemeral_navigation
  rw [hdata, takeUntilChar_append _ _ _ hb, hbase, if_neg (by simp),
    afterChar_append _ _ _ hb]
  simp only [Option.getD_some]
  rw [afterSub_self_append _ _ (by decide)]
  rfl

/-- Such a compose navigation never equals the start URL and is never the
empty URL (it is 9 + token-length characters longer than the start URL). -/
theorem compose_url_ne (b token : String) :
    b ++ "#compose=" ++ token ≠ "" ∧ b ++ "#compose=" ++ token ≠ b := by
  constructor
  · intro h
    have hlen := congrArg String.length h
    simp only [String.length_append] at hlen
    rw [show ("#compose=" : String).length = 9 from rfl,
      show ("" : String).length = 0 from rfl] at hlen
    omega
  · intro h
    have hlen := congrArg String.length h
    simp only [String.length_append] at hlen
    rw [show ("#compose=" : String).length = 9 from rfl] at hlen
    omega

/-- C6 (corrected): for every navigate event, canonicalization emits a
navigate step unless the URL is empty, equals `start_url`, or is ephemeral
(same base URL ignoring the fragment and a fragment whose `compose=` token
is longer than 20 characters); in particular, against a `#`-free start
URL, a `compose=` token of 21 characters is dropped and one of 20 or
fewer characters is kept. -/
theorem C6_ephemeral_navigation_filter :
    (∀ su (e : RawEvent) rest, e.type = "navigate" →
      phase1 su (e :: rest) =
        (if e.url ≠ "" ∧ e.url ≠ su ∧ ¬ is_ephemeral_navigation e.url su
         then [navStepOf e.url] else []) ++ phase1 su rest) ∧
    (∀ (b token : String) rest (e : RawEvent), '#' ∉ b.data →
      e.type = "navigate" → e.url = b ++ "#compose=" ++ token →
      (token.length ≤ 20 → phase1 b (e :: rest) = navStepOf e.url :: phase1 b rest) ∧
      (20 < token.length → phase1 b (e :: rest) = phase1 b rest)) := by
  have hnav : ∀ su (e : RawEvent) rest, e.type = "navigate" →
      phase1 su (e :: rest) =
        (if e.url ≠ "" ∧ e.url ≠ su ∧ ¬ is_ephemeral_navigation e.url su
         then [navStepOf e.url] else []) ++ phase1 su rest := by
    intro su e rest hty
    simp only [phase1, hty]
    simp
  refine ⟨hnav, fun b token rest e hb hty hurl => ⟨fun hle => ?_, fun hgt => ?_⟩⟩
  · rw [hnav b e rest hty]
    rw [if_pos ?_]
    · rfl
    · refine ⟨hurl ▸ (compose_url_ne b token).1, hurl ▸ (compose_url_ne b token).2, ?_⟩
      rw [hurl, ephemeral_compose b token hb]
      simp
      omega
  · rw [hnav b e rest hty]
    rw [if_neg ?_]
    · rfl
    · intro hcond
      apply hcond.2.2
      rw [hurl, ephemeral_compose b token hb]
      simpa using hgt

/-- Witness for C6: against the start URL `https://app.example/mail`, a
21-character compose token is dropped and a 20-character token is kept. -/
theorem C6_ephemeral_navigation_filter_witness :
    phase1 "https://app.example/mail"
      [{ type := "navigate",
         url := "https://app.example/mail#compose=AAAAAAAAAAAAAAAAAAAAA" }] = [] ∧
    phase1 "https://app.example/mail"
      [{ type := "navigate",
         url := "https://app.example/mail#compose=AAAAAAAAAAAAAAAAAAAA" }] =
      [navStepOf "https://app.example/mail#compose=AAAAAAAAAAAAAAAAAAAA"] := by
  have h21 := (C6_ephemeral_navigation_filter.2 "https://app.example/mail"
    "AAAAAAAAAAAAAAAAAAAAA" []
    { type := "navigate",
      url := "https://app.example/mail#compose=AAAAAAAAAAAAAAAAAAAAA" }
    (by decide) rfl (by decide)).2 (by decide)
  have h20 := (C6_ephemeral_navigation_filter.2 "https://app.example/mail"
    "AAAAAAAAAAAAAAAAAAAA" []
    { type := "navigate",
      url := "https://app.example/mail#compose=AAAAAAAAAAAAAAAAAAAA" }
    (by decide) rfl (by decide)).1 (by decide)
  have hempty : phase1 "https://app.example/mail" ([] : List RawEvent) = [] := by
    simp [phase1]
  rw [hempty] at h21 h20
  exact ⟨h21, h20⟩

/-- Counterexample for C6 as stated: a navigate event with an empty URL is
dropped even though the empty URL neither equals the start URL nor is
ephemeral. -/
theorem C6_ephemeral_navigation_filter_counterexample :
    ("" : String) ≠ "https://example.com" ∧
    is_ephemeral_navigation "" "https://example.com" = false ∧
    phase1 "https://example.com" [{ type := "navigate" }] = [] := by
  refine ⟨by decide, by decide, ?_⟩
  simp [phase1]

/-! ## C4: merging of type runs -/

/-- Characterization of the merge loop on an explicit run: it swallows the
whole chain, returns the last typed element/text, and leaves the stopping
suffix untouched. -/
theorem mergeRun_chain :
    ∀ (items : List RawEvent) (el : ElementInfo) (txt : String) (rest : List RawEvent),
      chainOk el items = true →
      stopsRun (lastTyped el txt items).1 rest = true →
      mergeRun el txt (items ++ rest) =
        ((lastTyped el txt items).1, (lastTyped el txt items).2, rest) := by
  intro items
  induction items with
  | nil =>
    intro el txt rest _ hstop
    simp only [lastTyped] at hstop ⊢
    cases rest with
    | nil => rfl
    | cons e r =>
      simp only [stopsRun, Bool.and_eq_true, Bool.not_eq_true'] at hstop
      obtain ⟨hnb, hnm⟩ := hstop
      simp only [List.nil_append, mergeRun]
      rw [if_neg ?_, if_neg (by simp [hnb])]
      intro hcond
      have : (decide (e.type = "type") && elements_match el e.element) = true := by
        simp [hcond.1, hcond.2]
      rw [this] at hnm
      cases hnm
  | cons e items' ih =>
    intro el txt rest hchain hstop
    by_cases hbk : isBackspaceKey e = true
    · have htype : e.type = "key" := by
        simp only [isBackspaceKey, Bool.decide_and, Bool.and_eq_true, decide_eq_true_eq] at hbk
        exact hbk.1
      simp only [chainOk, if_pos hbk] at hchain
      have hlast : lastTyped el txt (e :: items') = lastTyped el txt items' := by
        simp [lastTyped, htype]
      rw [hlast] at hstop
      simp only [List.cons_append, mergeRun, List.append_eq]
      rw [if_neg (by simp [htype]), if_pos hbk, ih el txt rest hchain hstop, hlast]
    · simp only [chainOk, if_neg hbk, Bool.and_eq_true, decide_eq_true_eq] at hchain
      obtain ⟨⟨htype, hmatch⟩, hchain'⟩ := hchain
      have hlast : lastTyped el txt (e :: items') = lastTyped e.element e.text items' := by
        simp [lastTyped, htype]
      rw [hlast] at hstop
      simp only [List.cons_append, mergeRun, List.append_eq]
      rw [if_pos ⟨htype, hmatch⟩, ih e.element e.text rest hchain' hstop, hlast]

/-- Deduplication leaves a single `type` step alone. -/
theorem dedup_single_type (s : WorkflowStep) (h : s.action = "type") :
    deduplicate_steps [s] = [s] := by
  by_cases hfid : fieldId s.element ≠ ""
  · simp [deduplicate_steps, dedupAux, h, hfid, lookupA]
  · simp [deduplicate_steps, dedupAux, h, hfid]

/-- C4: a maximal run of type events on chain-matching descriptors,
interleaved with Backspace/Delete keys, canonicalizes to at most one type
step carrying the last typed element and text — and to no step at all when
that final merged text is empty.  On the run alone, the full pipeline
(phase 1 plus deduplication) produces exactly that. -/
theorem C4_type_run_collapses :
    ∀ su (e0 : RawEvent) (items rest : List RawEvent),
      e0.type = "type" →
      chainOk e0.element items = true →
      stopsRun (lastTyped e0.element e0.text items).1 rest = true →
      (phase1 su (e0 :: (items ++ rest)) =
        (if (lastTyped e0.element e0.text items).2 ≠ ""
         then [typeStepOf (lastTyped e0.element e0.text items).1
                 (lastTyped e0.element e0.text items).2]
         else []) ++ phase1 su rest) ∧
      (rest = [] →
        process_raw_events (e0 :: items) su =
          if (lastTyped e0.element e0.text items).2 ≠ ""
          then [typeStepOf (lastTyped e0.element e0.text items).1
                  (lastTyped e0.element e0.text items).2]
          else []) := by
  intro su e0 items rest hty hchain hstop
  have hmerge := mergeRun_chain items e0.element e0.text rest hchain hstop
  have hphase : phase1 su (e0 :: (items ++ rest)) =
      (if (lastTyped e0.element e0.text items).2 ≠ ""
       then [typeStepOf (lastTyped e0.element e0.text items).1
               (lastTyped e0.element e0.text items).2]
       else []) ++ phase1 su rest := by
    simp only [phase1, hty]
    rw [hmerge]
    simp
  refine ⟨hphase, fun hrest => ?_⟩
  subst hrest
  have hplain : phase1 su (e0 :: items) =
      (if (lastTyped e0.element e0.text items).2 ≠ ""
       then [typeStepOf (lastTyped e0.element e0.text items).1
               (lastTyped e0.element e0.text items).2]
       else []) := by
    have := hphase
    rw [List.append_nil] at this
    rw [this]
    simp [phase1]
  show deduplicate_steps (phase1 su (e0 :: items)) = _
  rw [hplain]
  by_cases hne : (lastTyped e0.element e0.text items).2 ≠ ""
  · rw [if_pos hne]
    exact dedup_single_type _ rfl
  · rw [if_neg hne]
    rfl

/-- Witness for C4 on the spec's scenario 2: three type events with an
interleaved Backspace collapse to one step with the final text. -/
theorem C4_type_run_collapses_witness :
    process_raw_events
      [{ type := "type", element := { aria_label := "B" }, text := "h" },
       { type := "type", element := { aria_label := "B" }, text := "he" },
       { type := "key", key := "Backspace" },
       { type := "type", element := { aria_label := "B" }, text := "hello" }] "" =
      [typeStepOf { aria_label := "B" } "hello"] := by
  have h := (C4_type_run_collapses ""
    { type := "type", element := { aria_label := "B" }, text := "h" }
    [{ type := "type", element := { aria_label := "B" }, text := "he" },
     { type := "key", key := "Backspace" },
     { type := "type", element := { aria_label := "B" }, text := "hello" }]
    [] rfl (by decide) (by decide)).2 rfl
  rw [h]
  rfl

/-! ## C3: focusing clicks absorbed into the following type step -/

/-- Looking ahead while skipping Backspace/Delete key events finds the
first non-key event, provided it lies inside the window. -/
theorem next_non_backspace_skip :
    ∀ (bs : List RawEvent) (fuel : Nat) (t : RawEvent) (rest : List RawEvent),
      (∀ e ∈ bs, isBackspaceKey e = true) → bs.length < fuel →
      isBackspaceKey t = false →
      next_non_backspace (bs ++ t :: rest) fuel = some t := by
  intro bs
  induction bs with
  | nil =>
    intro fuel t rest _ hfuel ht
    cases fuel with
    | zero => omega
    | succ n => simp [next_non_backspace, ht]
  | cons b bs' ih =>
    intro fuel t rest hb hfuel ht
    cases fuel with
    | zero => omega
    | succ n =>
      simp only [List.cons_append, next_non_backspace,
        if_pos (hb b (List.mem_cons_self b bs'))]
      exact ih n t rest (fun e he => hb e (List.mem_cons_of_mem b he))
        (by simp at hfuel; omega) ht

/-- Phase 1 drops standalone Backspace/Delete key events. -/
theorem phase1_skip_backspace_keys :
    ∀ (bs : List RawEvent) su (l : List RawEvent),
      (∀ e ∈ bs, isBackspaceKey e = true) →
      phase1 su (bs ++ l) = phase1 su l := by
  intro bs
  induction bs with
  | nil => intro su l _; rfl
  | cons b bs' ih =>
    intro su l hb
    have hbk := hb b (List.mem_cons_self b bs')
    simp only [isBackspaceKey, Bool.decide_and, Bool.and_eq_true, decide_eq_true_eq,
      Bool.decide_or, Bool.or_eq_true] at hbk
    obtain ⟨htype, hkey⟩ := hbk
    have hrec := ih su l (fun e he => hb e (List.mem_cons_of_mem b he))
    simp only [List.cons_append, phase1, htype]
    simp only [reduceIte, hkey]
    simpa [hkey] using hrec

/-- C3 (corrected): a click followed — within the 5-event lookahead window,
skipping Backspace/Delete keys — by a type event on a matching descriptor
is absorbed: phase 1 emits no click step for it and, provided the merged
text of the type run beginning at that type event is non-empty, exactly
one type step for the pair.  On an event list consisting of just such a
pair with non-empty text, full canonicalization outputs exactly the one
type step. -/
theorem C3_focus_click_absorbed :
    ∀ su (c : RawEvent) (bs : List RawEvent) (t : RawEvent) (rest : List RawEvent),
      c.type = "click" →
      (∀ e ∈ bs, isBackspaceKey e = true) →
      bs.length ≤ 4 →
      t.type = "type" →
      elements_match c.element t.element = true →
      ((mergeRun t.element t.text rest).2.1 ≠ "" →
        phase1 su (c :: (bs ++ t :: rest)) =
          typeStepOf (mergeRun t.element t.text rest).1
              (mergeRun t.element t.text rest).2.1 ::
            phase1 su (mergeRun t.element t.text rest).2.2) ∧
      (t.text ≠ "" →
        process_raw_events (c :: (bs ++ [t])) su = [typeStepOf t.element t.text]) := by
  intro su c bs t rest hc hbs hlen hty hmatch
  have htnb : isBackspaceKey t = false := by
    simp [isBackspaceKey, hty]
  have habsorb : ∀ (r : List RawEvent),
      phase1 su (c :: (bs ++ t :: r)) = phase1 su (t :: r) := by
    intro r
    have hnext := next_non_backspace_skip bs 5 t r hbs (by omega) htnb
    conv_lhs => rw [phase1.eq_2]
    rw [if_neg (by simp [hc]), if_pos hc]
    simp only [hnext]
    rw [if_pos ⟨hty, hmatch⟩]
    exact phase1_skip_backspace_keys bs su (t :: r) hbs
  constructor
  · intro hne
    rw [habsorb rest]
    simp only [phase1, hty]
    simp only [reduceIte]
    rw [if_pos hne]
    rfl
  · intro htext
    have h1 : phase1 su (c :: (bs ++ [t])) = phase1 su [t] := habsorb []
    have h2 : phase1 su [t] = [typeStepOf t.element t.text] := by
      simp only [phase1, hty]
      simp only [reduceIte, mergeRun]
      rw [if_pos htext]
      simp [phase1]
    show deduplicate_steps (phase1 su (c :: (bs ++ [t]))) = _
    rw [h1, h2]
    exact dedup_single_type _ rfl

/-- Witness for C3: a focusing click on a field followed by typing into the
same field canonicalizes to the single type step. -/
theorem C3_focus_click_absorbed_witness :
    process_raw_events
      [{ type := "click", element := { aria_label := "To" }, x := 10, y := 20 },
       { type := "type", element := { aria_label := "To" }, text := "bob" }] "" =
      [typeStepOf { aria_label := "To" } "bob"] := by
  exact (C3_focus_click_absorbed ""
    { type := "click", element := { aria_label := "To" }, x := 10, y := 20 }
    []
    { type := "type", element := { aria_label := "To" }, text := "bob" }
    [] rfl (by intro e he; cases he) (by decide) rfl (by decide)).2 (by decide)

/-- Counterexample for C3 as stated: a click absorbed by a matching type
event whose (merged) text is empty yields zero type steps, not exactly
one. -/
theorem C3_focus_click_absorbed_counterexample :
    next_non_backspace [{ type := "type", element := { aria_label := "B" } }] 5 =
      some { type := "type", element := { aria_label := "B" } } ∧
    elements_match { aria_label := "B" } { aria_label := "B" } = true ∧
    process_raw_events
      [{ type := "click", element := { aria_label := "B" }, x := 1, y := 2 },
       { type := "type", element := { aria_label := "B" } }] "" = [] := by
  refine ⟨by decide, by decide, ?_⟩
  simp [process_raw_events, deduplicate_steps, dedupAux, phase1, mergeRun,
    next_non_backspace, isBackspaceKey, elements_match]

/-! ## C5: the deduplication pass -/

theorem lastTypeText_cons_not (fid : String) (s : WorkflowStep)
    (rest : List WorkflowStep) (h : isTypeFid fid s = false) :
    lastTypeText fid (s :: rest) = lastTypeText fid rest := by
  simp only [lastTypeText]
  cases lastTypeText fid rest with
  | some t => rfl
  | none => simp [h]

theorem lastTypeText_cons_type (fid : String) (s : WorkflowStep)
    (rest : List WorkflowStep) (h : isTypeFid fid s = true) :
    lastTypeText fid (s :: rest) = (lastTypeText fid rest).or (some s.text) := by
  simp only [lastTypeText]
  cases lastTypeText fid rest with
  | some t => rfl
  | none => simp [h, Option.or]

/-- The replacement filter of the deduplication pass removes every `type`
step on the replaced field identity. -/
theorem filter_replace_self (l : List WorkflowStep) (fid : String) :
    ((l.filter (fun r => ¬ (r.action = "type" ∧ fieldId r.element = fid))).filter
      (isTypeFid fid)) = [] := by
  induction l with
  | nil => rfl
  | cons x xs ih =>
    simp only [decide_not] at ih
    by_cases hx : x.action = "type" ∧ fieldId x.element = fid
    · have hd : decide (x.action = "type" ∧ fieldId x.element = fid) = true :=
        decide_eq_true hx
      simp only [List.filter_cons, decide_not, hd, Bool.not_true, Bool.false_eq_true, if_false]
      exact ih
    · have hd : decide (x.action = "type" ∧ fieldId x.element = fid) = false :=
        decide_eq_false hx
      have h2 : isTypeFid fid x = false := by simp [isTypeFid, hx]
      simp only [List.filter_cons, decide_not, hd, Bool.not_false, if_true]
      simp only [List.filter_cons, h2, Bool.false_eq_true, if_false]
      exact ih

/-- The replacement filter for a different field identity keeps every
`type` step on `fid`. -/
theorem filter_replace_other (l : List WorkflowStep) (fid fid2 : String)
    (h : fid ≠ fid2) :
    ((l.filter (fun r => ¬ (r.action = "type" ∧ fieldId r.element = fid2))).filter
      (isTypeFid fid)) = l.filter (isTypeFid fid) := by
  induction l with
  | nil => rfl
  | cons x xs ih =>
    by_cases hx : x.action = "type" ∧ fieldId x.element = fid2
    · have hnot : isTypeFid fid x = false := by
        simp only [isTypeFid, Bool.decide_and]
        simp only [hx.2, decide_eq_true_eq, Bool.and_eq_false_iff, decide_eq_false_iff_not]
        right
        exact fun hcon => h hcon.symm
      simp only [List.filter_cons, decide_not, hx]
      simp only [decide_True, Bool.not_true, Bool.false_eq_true, if_false, hnot]
      simpa [hnot] using ih
    · simp only [List.filter_cons, decide_not, hx]
      simp only [decide_False, Bool.not_false, if_true]
      cases hfx : isTypeFid fid x
      · simpa [hfx] using ih
      · simpa [hfx] using ih

/-- The replacement filter keeps every `click` step. -/
theorem filter_replace_click (l : List WorkflowStep) (fid fid2 : String) :
    ((l.filter (fun r => ¬ (r.action = "type" ∧ fieldId r.element = fid2))).filter
      (isClickFid fid)) = l.filter (isClickFid fid) := by
  induction l with
  | nil => rfl
  | cons x xs ih =>
    by_cases hx : x.action = "type" ∧ fieldId x.element = fid2
    · have hnot : isClickFid fid x = false := by
        simp only [isClickFid, Bool.decide_and]
        simp [hx.1]
      simp only [List.filter_cons, decide_not, hx]
      simp only [decide_True, Bool.not_true, Bool.false_eq_true, if_false, hnot]
      simpa [hnot] using ih
    · simp only [List.filter_cons, decide_not, hx]
      simp only [decide_False, Bool.not_false, if_true]
      cases hfx : isClickFid fid x
      · simpa [hfx] using ih
      · simpa [hfx] using ih

/-- Invariant proof for the `type`-step half of the deduplication pass. -/
theorem dedupAux_type_texts (fid : String) (hfid : fid ≠ "") :
    ∀ (steps result : List WorkflowStep) (typed : List (String × String)),
      ((result.filter (isTypeFid fid)).map (fun s => s.text) =
        (lookupA typed fid).toList) →
      (((dedupAux steps result typed).filter (isTypeFid fid)).map (fun s => s.text) =
        ((lastTypeText fid steps).or (lookupA typed fid)).toList) := by
  intro steps
  induction steps with
  | nil =>
    intro result typed hinv
    simpa [dedupAux, lastTypeText, Option.none_or] using hinv
  | cons s rest ih =>
    intro result typed hinv
    by_cases hty : s.action = "type"
    · by_cases hfs : fieldId s.element ≠ ""
      · by_cases hdup : (lookupA typed (fieldId s.element)).any (· = s.text) = true
        · -- exact duplicate: skipped, state unchanged
          rw [show dedupAux (s :: rest) result typed = dedupAux rest result typed by
            simp [dedupAux, hty, hfs, hdup]]
          rw [ih result typed hinv]
          by_cases hsame : fieldId s.element = fid
          · obtain ⟨v, hv, hveq⟩ : ∃ v, lookupA typed fid = some v ∧ v = s.text := by
              rw [← hsame]
              cases hl : lookupA typed (fieldId s.element) with
              | none => rw [hl] at hdup; cases hdup
              | some v =>
                rw [hl] at hdup
                simp only [Option.any_some, decide_eq_true_eq] at hdup
                exact ⟨v, rfl, hdup⟩
            rw [lastTypeText_cons_type fid s rest (by simp [isTypeFid, hty, hsame]),
              hv, hveq, Option.or_assoc]
            rfl
          · rw [lastTypeText_cons_not fid s rest (by simp [isTypeFid, hsame])]
        · -- new or changed text: replace previous step for this identity
          rw [show dedupAux (s :: rest) result typed =
              dedupAux rest
                ((result.filter
                  (fun r => ¬ (r.action = "type" ∧ fieldId r.element = fieldId s.element)))
                  ++ [s])
                ((fieldId s.element, s.text) :: typed) by
            simp [dedupAux, hty, hfs, hdup]]
          by_cases hsame : fieldId s.element = fid
          · have hinv' : (((result.filter
                (fun r => ¬ (r.action = "type" ∧ fieldId r.element = fieldId s.element)))
                ++ [s]).filter (isTypeFid fid)).map (fun x => x.text) =
                (lookupA ((fieldId s.element, s.text) :: typed) fid).toList := by
              rw [List.filter_append, hsame, filter_replace_self]
              simp [lookupA, hsame, isTypeFid, hty]
            rw [ih _ _ hinv']
            rw [lastTypeText_cons_type fid s rest (by simp [isTypeFid, hty, hsame]),
              Option.or_assoc]
            simp [lookupA, hsame, Option.or]
          · have hinv' : (((result.filter
                (fun r => ¬ (r.action = "type" ∧ fieldId r.element = fieldId s.element)))
                ++ [s]).filter (isTypeFid fid)).map (fun x => x.text) =
                (lookupA ((fieldId s.element, s.text) :: typed) fid).toList := by
              rw [List.filter_append,
                filter_replace_other _ fid (fieldId s.element) (fun h => hsame h.symm)]
              have hsingle : [s].filter (isTypeFid fid) = [] := by
                simp [isTypeFid, hsame]
              rw [hsingle, List.append_nil]
              rw [show lookupA ((fieldId s.element, s.text) :: typed) fid =
                lookupA typed fid by simp [lookupA, hsame]]
              exact hinv
            rw [ih _ _ hinv']
            rw [lastTypeText_cons_not fid s rest (by simp [isTypeFid, hsame]),
              show lookupA ((fieldId s.element, s.text) :: typed) fid =
                lookupA typed fid by simp [lookupA, hsame]]
      · -- type step with empty field identity: appended as-is
        rw [show dedupAux (s :: rest) result typed =
            dedupAux rest (result ++ [s]) typed by simp [dedupAux, hty, hfs]]
        have hs : isTypeFid fid s = false := by
          simp only [not_not] at hfs
          simp [isTypeFid, hfs, Ne.symm hfid]
        have hinv' : (((result ++ [s]).filter (isTypeFid fid)).map (fun x => x.text) =
            (lookupA typed fid).toList) := by
          rw [List.filter_append, show [s].filter (isTypeFid fid) = [] by simp [hs],
            List.append_nil]
          exact hinv
        rw [ih _ _ hinv', lastTypeText_cons_not fid s rest hs]
    · -- click and other steps never contribute type steps
      have hs : isTypeFid fid s = false := by simp [isTypeFid, hty]
      have happend : ∀ r', r' = result ++ [s] →
          (((r').filter (isTypeFid fid)).map (fun x => x.text) =
            (lookupA typed fid).toList) := by
        intro r' hr'
        subst hr'
        rw [List.filter_append, show [s].filter (isTypeFid fid) = [] by simp [hs],
          List.append_nil]
        exact hinv
      by_cases hclick : s.action = "click"
      · by_cases hskip : fieldId s.element ≠ "" ∧
            (lookupA typed (fieldId s.element)).isSome = true
        · rw [show dedupAux (s :: rest) result typed = dedupAux rest result typed by
            simp [dedupAux, hclick, hskip]]
          rw [ih result typed hinv, lastTypeText_cons_not fid s rest hs]
        · rw [show dedupAux (s :: rest) result typed =
              dedupAux rest (result ++ [s]) typed by
            simp [dedupAux, hclick, hskip]]
          rw [ih _ _ (happend _ rfl), lastTypeText_cons_not fid s rest hs]
      · rw [show dedupAux (s :: rest) result typed =
            dedupAux rest (result ++ [s]) typed by
          simp [dedupAux, hty, hclick]]
        rw [ih _ _ (happend _ rfl), lastTypeText_cons_not fid s rest hs]

/-- Invariant proof for the `click`-step half of the deduplication pass. -/
theorem dedupAux_click_count (fid : String) (hfid : fid ≠ "") :
    ∀ (steps result : List WorkflowStep) (typed : List (String × String)),
      ((dedupAux steps result typed).filter (isClickFid fid)).length =
        (result.filter (isClickFid fid)).length +
        (if (lookupA typed fid).isSome then 0 else clicksBeforeType fid steps) := by
  intro steps
  induction steps with
  | nil =>
    intro result typed
    simp [dedupAux, clicksBeforeType]
  | cons s rest ih =>
    intro result typed
    by_cases hty : s.action = "type"
    · have hnc : isClickFid fid s = false := by simp [isClickFid, hty]
      by_cases hfs : fieldId s.element ≠ ""
      · by_cases hdup : (lookupA typed (fieldId s.element)).any (· = s.text) = true
        · rw [show dedupAux (s :: rest) result typed = dedupAux rest result typed by
            simp [dedupAux, hty, hfs, hdup]]
          rw [ih]
          by_cases hsame : fieldId s.element = fid
          · have hsomelook : (lookupA typed fid).isSome = true := by
              rw [← hsame]
              cases hl : lookupA typed (fieldId s.element) with
              | none => rw [hl] at hdup; cases hdup
              | some v => rfl
            simp [hsomelook, clicksBeforeType]
          · congr 1
            by_cases hlookup : (lookupA typed fid).isSome
            · simp [hlookup]
            · simp only [hlookup, if_false, Bool.false_eq_true]
              rw [show clicksBeforeType fid (s :: rest) = clicksBeforeType fid rest by
                simp [clicksBeforeType, isTypeFid, hsame, hnc]]
        · rw [show dedupAux (s :: rest) result typed =
              dedupAux rest
                ((result.filter
                  (fun r => ¬ (r.action = "type" ∧ fieldId r.element = fieldId s.element)))
                  ++ [s])
                ((fieldId s.element, s.text) :: typed) by
            simp [dedupAux, hty, hfs, hdup]]
          rw [ih]
          rw [List.filter_append, filter_replace_click,
            show [s].filter (isClickFid fid) = [] by simp [hnc], List.append_nil]
          by_cases hsame : fieldId s.element = fid
          · have : (lookupA ((fieldId s.element, s.text) :: typed) fid).isSome = true := by
              simp [lookupA, hsame]
            simp only [this, if_true]
            rw [show clicksBeforeType fid (s :: rest) = 0 by
              simp [clicksBeforeType, isTypeFid, hty, hsame]]
            simp
          · rw [show lookupA ((fieldId s.element, s.text) :: typed) fid =
              lookupA typed fid by simp [lookupA, hsame]]
            congr 1
            by_cases hlookup : (lookupA typed fid).isSome
            · simp [hlookup]
            · simp only [hlookup, if_false, Bool.false_eq_true]
              rw [show clicksBeforeType fid (s :: rest) = clicksBeforeType fid rest by
                simp [clicksBeforeType, isTypeFid, hsame, hnc]]
      · rw [show dedupAux (s :: rest) result typed =
            dedupAux rest (result ++ [s]) typed by simp [dedupAux, hty, hfs]]
        rw [ih]
        rw [List.filter_append, show [s].filter (isClickFid fid) = [] by simp [hnc],
          List.append_nil]
        congr 1
        simp only [not_not] at hfs
        have hnotty : isTypeFid fid s = false := by
          simp [isTypeFid, hfs, Ne.symm hfid]
        by_cases hlookup : (lookupA typed fid).isSome
        · simp [hlookup]
        · simp only [hlookup, if_false, Bool.false_eq_true]
          rw [show clicksBeforeType fid (s :: rest) = clicksBeforeType fid rest by
            simp [clicksBeforeType, hnotty, hnc]]
    · have hnotty : isTypeFid fid s = false := by simp [isTypeFid, hty]
      by_cases hclick : s.action = "click"
      · by_cases hskip : fieldId s.element ≠ "" ∧
            (lookupA typed (fieldId s.element)).isSome = true
        · rw [show dedupAux (s :: rest) result typed = dedupAux rest result typed by
            simp [dedupAux, hclick, hskip]]
          rw [ih]
          congr 1
          by_cases hlookup : (lookupA typed fid).isSome
          · simp [hlookup]
          · simp only [hlookup, if_false, Bool.false_eq_true]
            have hnotcf : isClickFid fid s = false := by
              by_cases hsame : fieldId s.element = fid
              · exfalso
                apply hlookup
                rw [← hsame]
                exact hskip.2
              · simp [isClickFid, hsame]
            rw [show clicksBeforeType fid (s :: rest) = clicksBeforeType fid rest by
              simp [clicksBeforeType, hnotty, hnotcf]]
        · rw [show dedupAux (s :: rest) result typed =
              dedupAux rest (result ++ [s]) typed by
            simp [dedupAux, hclick, hskip]]
          rw [ih]
          rw [List.filter_append]
          by_cases hcf : isClickFid fid s = true
          · rw [show [s].filter (isClickFid fid) = [s] by simp [hcf]]
            have hlookno : (lookupA typed fid).isSome = false := by
              by_contra hcon
              apply hskip
              have hsame : fieldId s.element = fid := by
                have := hcf
                simp only [isClickFid, Bool.decide_and, Bool.and_eq_true,
                  decide_eq_true_eq] at this
                exact this.2
              rw [hsame]
              refine ⟨hfid, ?_⟩
              simp only [Bool.not_eq_false] at hcon
              exact hcon
            simp only [hlookno, Bool.false_eq_true, if_false]
            rw [show clicksBeforeType fid (s :: rest) =
              1 + clicksBeforeType fid rest by
                simp [clicksBeforeType, hnotty, hcf]]
            simp only [List.length_append, List.length_cons, List.length_nil]
            omega
          · simp only [Bool.not_eq_true] at hcf
            rw [show [s].filter (isClickFid fid) = [] by simp [hcf], List.append_nil]
            congr 1
            by_cases hlookup : (lookupA typed fid).isSome
            · simp [hlookup]
            · simp only [hlookup, if_false, Bool.false_eq_true]
              rw [show clicksBeforeType fid (s :: rest) = clicksBeforeType fid rest by
                simp [clicksBeforeType, hnotty, hcf]]
      · have hncf : isClickFid fid s = false := by simp [isClickFid, hclick]
        rw [show dedupAux (s :: rest) result typed =
            dedupAux rest (result ++ [s]) typed by
          simp [dedupAux, hty, hclick]]
        rw [ih]
        rw [List.filter_append, show [s].filter (isClickFid fid) = [] by simp [hncf],
          List.append_nil]
        congr 1
        by_cases hlookup : (lookupA typed fid).isSome
        · simp [hlookup]
        · simp only [hlookup, if_false, Bool.false_eq_true]
          rw [show clicksBeforeType fid (s :: rest) = clicksBeforeType fid rest by
            simp [clicksBeforeType, hnotty, hncf]]

/-- C5: after deduplication, each non-empty field identity carries at most
one `type` step, whose text is the text of the last `type` step for that
identity in the input (a later different text replaces the earlier step);
and exactly the `click` steps on that identity occurring before its first
`type` step survive — every click after a recorded typed value is
dropped. -/
theorem C5_dedup_per_field_identity (steps : List WorkflowStep) (fid : String)
    (hfid : fid ≠ "") :
    ((deduplicate_steps steps).filter (isTypeFid fid)).map (fun s => s.text) =
      (lastTypeText fid steps).toList ∧
    ((deduplicate_steps steps).filter (isClickFid fid)).length =
      clicksBeforeType fid steps := by
  constructor
  · have h := dedupAux_type_texts fid hfid steps [] [] (by simp [lookupA])
    simpa [deduplicate_steps, lookupA, Option.or_none] using h
  · have h := dedupAux_click_count fid hfid steps [] []
    simpa [deduplicate_steps, lookupA] using h

/-- Witness for C5: on a list with two different texts typed into field `B`
and clicks before and after, only the last text survives, the later click
is dropped, and the earlier click is kept. -/
theorem C5_dedup_per_field_identity_witness :
    (((deduplicate_steps
        [{ action := "click", element := { aria_label := "B" } },
         { action := "type", text := "x", element := { aria_label := "B" } },
         { action := "click", element := { aria_label := "B" } },
         { action := "type", text := "y", element := { aria_label := "B" } },
         { action := "click", element := { aria_label := "C" } }]).filter
        (isTypeFid "B")).map (fun s => s.text) = ["y"]) ∧
    (((deduplicate_steps
        [{ action := "click", element := { aria_label := "B" } },
         { action := "type", text := "x", element := { aria_label := "B" } },
         { action := "click", element := { aria_label := "B" } },
         { action := "type", text := "y", element := { aria_label := "B" } },
         { action := "click", element := { aria_label := "C" } }]).filter
        (isClickFid "B")).length = 1) := by
  have h := C5_dedup_per_field_identity
    [{ action := "click", element := { aria_label := "B" } },
     { action := "type", text := "x", element := { aria_label := "B" } },
     { action := "click", element := { aria_label := "B" } },
     { action := "type", text := "y", element := { aria_label := "B" } },
     { action := "click", element := { aria_label := "C" } }] "B" (by decide)
  exact ⟨by rw [h.1]; decide, by rw [h.2]; decide⟩

/-! ## C7: stuck-loop detection in the AI agent loop -/

/-- C7: an action whose signature makes the last 4 window entries identical
is not executed — the loop appends a stuck-loop error result for the model
and carries on with the task still in its previous status; and a model
that repeats one click forever gets it executed exactly 3 times in a
6-step run, the fourth and later occurrences being replaced by the
stuck-loop error result while the loop keeps running to the max-steps
failure. -/
theorem C7_stuck_loop_not_executed :
    (∀ (fx : LoopFx) (stepIdx : Nat) (a : AgentAction) (rest : List AgentAction)
       (k : Nat) (st : LoopState) (trs : List ToolResult),
      a.action ≠ "screenshot" →
      is_stuck (pushRecent st.recent (actionSig a)) = true →
      runActions fx stepIdx (a :: rest) k st trs =
        runActions fx stepIdx rest (k + 1)
          { st with
              task := { st.task with current_action := some a.action,
                                     steps_completed := stepIdx + 1 },
              taskTrace := st.taskTrace ++
                [{ st.task with current_action := some a.action,
                                steps_completed := stepIdx + 1 }],
              recent := pushRecent st.recent (actionSig a) }
          (trs ++ [.errorResult a.tool_use_id stuckMessage])) ∧
    ((run_agent_loop
        { llm := fun _ => .reply
            [{ tool_use_id := "tu", action := "left_click",
               coordinate := some (100, 200) }] ""
          act := fun _ _ => { }
          scale := id
          screenshot := "img"
          cancelAt := fun _ => false } 6
        { task_id := "t7", instruction := "book the flight" }).executed =
          [(0, 0), (1, 0), (2, 0)] ∧
     (run_agent_loop
        { llm := fun _ => .reply
            [{ tool_use_id := "tu", action := "left_click",
               coordinate := some (100, 200) }] ""
          act := fun _ _ => { }
          scale := id
          screenshot := "img"
          cancelAt := fun _ => false } 6
        { task_id := "t7", instruction := "book the flight" }).task.status = .failed ∧
     (run_agent_loop
        { llm := fun _ => .reply
            [{ tool_use_id := "tu", action := "left_click",
               coordinate := some (100, 200) }] ""
          act := fun _ _ => { }
          scale := id
          screenshot := "img"
          cancelAt := fun _ => false } 6
        { task_id := "t7", instruction := "book the flight" }).task.error =
          some "Max steps (6) reached without completing the task" ∧
     ((run_agent_loop
        { llm := fun _ => .reply
            [{ tool_use_id := "tu", action := "left_click",
               coordinate := some (100, 200) }] ""
          act := fun _ _ => { }
          scale := id
          screenshot := "img"
          cancelAt := fun _ => false } 6
        { task_id := "t7", instruction := "book the flight" }).messages.count
          (Msg.userResults [.errorResult "tu" stuckMessage]) = 3)) := by
  constructor
  · intro fx stepIdx a rest k st trs hne hstuck
    simp only [runActions]
    rw [if_neg hne, if_pos hstuck]
  · refine ⟨by decide, by decide, by decide, by decide⟩

/-- Witness for C7: with a window already holding three identical
signatures, the next identical non-screenshot action is replaced by the
stuck-loop error result, nothing is executed for it, and the task status
is untouched. -/
theorem C7_stuck_loop_not_executed_witness :
    runActions
      { llm := fun _ => .reply [] "", act := fun _ _ => { }, scale := id,
        screenshot := "img", cancelAt := fun _ => false } 3
      [{ tool_use_id := "tu", action := "left_click", coordinate := some (100, 200) }] 0
      { task := { task_id := "t7", instruction := "book", status := .running },
        messages := [], recent := List.replicate 3 "left_click:(100, 200):None",
        taskTrace := [], executed := [] } [] =
      ({ task := { task_id := "t7", instruction := "book", status := .running,
                   current_action := some "left_click", steps_completed := 4 },
         messages := [],
         recent := List.replicate 4 "left_click:(100, 200):None",
         taskTrace := [{ task_id := "t7", instruction := "book", status := .running,
                         current_action := some "left_click", steps_completed := 4 }],
         executed := [] },
       [.errorResult "tu" stuckMessage]) := by
  rw [C7_stuck_loop_not_executed.1
    { llm := fun _ => .reply [] "", act := fun _ _ => { }, scale := id,
      screenshot := "img", cancelAt := fun _ => false } 3
    { tool_use_id := "tu", action := "left_click", coordinate := some (100, 200) } [] 0
    { task := { task_id := "t7", instruction := "book", status := .running },
      messages := [], recent := List.replicate 3 "left_click:(100, 200):None",
      taskTrace := [], executed := [] } []
    (by decide) (by decide)]
  rfl

/-! ## C8: terminal statuses are final -/

/-- Trace shape of the direct-replay step loop: every broadcast but the
last shows a `running` task, the last broadcast is terminal and is the
final state. -/
theorem runSteps_trace_shape (fx : Nat → StepFx) (cAt : Nat → Bool) (total : Nat) :
    ∀ (steps : List WorkflowStep) (i : Nat) (t : TaskState), t.status = .running →
      ∃ tr fin, (runSteps fx cAt total steps i t).trace = tr ++ [fin] ∧
        (∀ x ∈ tr, x.status = .running) ∧ fin.status.isTerminal = true ∧
        (runSteps fx cAt total steps i t).task = fin := by
  intro steps
  induction steps with
  | nil =>
    intro i t _
    exact ⟨[], _, rfl, by simp, rfl, rfl⟩
  | cons s rest ih =>
    intro i t ht
    by_cases hc : cAt i = true
    · refine ⟨[],
        { t with status := .cancelled, result := some ("Cancelled after " ++ toString i ++ " steps") },
        ?_, by simp, rfl, ?_⟩
      · simp only [runSteps, hc, if_true]
        rfl
      · simp only [runSteps, hc, if_true]
    · have hupd : ({ t with current_action := some (if s.description ≠ "" then s.description else s.action), steps_completed := i + 1 } : TaskState).status = .running := ht
      cases hex : execute_step (fx i) s with
      | some e =>
        refine ⟨[{ t with current_action := some (if s.description ≠ "" then s.description else s.action), steps_completed := i + 1 }],
          { t with current_action := some (if s.description ≠ "" then s.description else s.action), steps_completed := i + 1, status := .failed, error := some ("Step " ++ toString (i + 1) ++ " failed: " ++ e) },
          ?_, ?_, rfl, ?_⟩
        · simp only [runSteps, hc, Bool.false_eq_true, if_false, hex]
          rfl
        · intro x hx
          rcases List.mem_singleton.mp hx with rfl
          exact hupd
        · simp only [runSteps, hc, Bool.false_eq_true, if_false, hex]
      | none =>
        obtain ⟨tr, fin, htr, hmem, hfin, htask⟩ := ih (i + 1)
          { t with current_action := some (if s.description ≠ "" then s.description else s.action), steps_completed := i + 1 } hupd
        refine ⟨{ t with current_action := some (if s.description ≠ "" then s.description else s.action), steps_completed := i + 1 } :: tr,
          fin, ?_, ?_, hfin, ?_⟩
        · simp only [runSteps, hc, Bool.false_eq_true, if_false, hex, htr]
          rfl
        · intro x hx
          rcases List.mem_cons.mp hx with hx | hx
          · subst hx; exact hupd
          · exact hmem x hx
        · simp only [runSteps, hc, Bool.false_eq_true, if_false, hex]
          exact htask

/-- Trace shape of the inner action loop of the agent: the task status is
never changed and every appended broadcast shows that same status. -/
theorem runActions_trace_shape (fx : LoopFx) (stepIdx : Nat) :
    ∀ (actions : List AgentAction) (k : Nat) (st : LoopState) (trs : List ToolResult),
      (runActions fx stepIdx actions k st trs).1.task.status = st.task.status ∧
      ∃ new, (runActions fx stepIdx actions k st trs).1.taskTrace = st.taskTrace ++ new ∧
        ∀ x ∈ new, x.status = st.task.status := by
  intro actions
  induction actions with
  | nil =>
    intro k st trs
    exact ⟨rfl, [], by simp [runActions], by simp⟩
  | cons a rest ih =>
    intro k st trs
    have hmain : ∀ (st' : LoopState) (trs' : List ToolResult),
        st'.task = { st.task with current_action := some a.action, steps_completed := stepIdx + 1 } →
        st'.taskTrace = st.taskTrace ++ [{ st.task with current_action := some a.action, steps_completed := stepIdx + 1 }] →
        (runActions fx stepIdx rest (k + 1) st' trs').1.task.status = st.task.status ∧
        ∃ new, (runActions fx stepIdx rest (k + 1) st' trs').1.taskTrace =
            st.taskTrace ++ new ∧ ∀ x ∈ new, x.status = st.task.status := by
      intro st' trs' htask htrace
      obtain ⟨hstat, new, htr, hmem⟩ := ih (k + 1) st' trs'
      have hstev : st'.task.status = st.task.status := by rw [htask]
      refine ⟨by rw [hstat, hstev],
        { st.task with current_action := some a.action, steps_completed := stepIdx + 1 } :: new,
        ?_, ?_⟩
      · rw [htr, htrace, List.append_assoc]
        rfl
      · intro x hx
        rcases List.mem_cons.mp hx with hx | hx
        · subst hx; rfl
        · rw [← hstev]
          exact hmem x hx
    by_cases hshot : a.action = "screenshot"
    · rw [show runActions fx stepIdx (a :: rest) k st trs =
        runActions fx stepIdx rest (k + 1)
          { st with task := { st.task with current_action := some a.action, steps_completed := stepIdx + 1 },
                    taskTrace := st.taskTrace ++ [{ st.task with current_action := some a.action, steps_completed := stepIdx + 1 }] }
          (trs ++ [.screenshotResult a.tool_use_id fx.screenshot]) by
        simp only [runActions]
        rw [if_pos hshot]]
      exact hmain _ _ rfl rfl
    · by_cases hstuck : is_stuck (pushRecent st.recent (actionSig a)) = true
      · rw [show runActions fx stepIdx (a :: rest) k st trs =
          runActions fx stepIdx rest (k + 1)
            { st with task := { st.task with current_action := some a.action, steps_completed := stepIdx + 1 },
                      taskTrace := st.taskTrace ++ [{ st.task with current_action := some a.action, steps_completed := stepIdx + 1 }],
                      recent := pushRecent st.recent (actionSig a) }
            (trs ++ [.errorResult a.tool_use_id stuckMessage]) by
          simp only [runActions]
          rw [if_neg hshot, if_pos hstuck]]
        exact hmain _ _ rfl rfl
      · cases hex : ActionExecutor.execute fx.scale (fx.act stepIdx k) a with
        | some e =>
          rw [show runActions fx stepIdx (a :: rest) k st trs =
            runActions fx stepIdx rest (k + 1)
              { st with task := { st.task with current_action := some a.action, steps_completed := stepIdx + 1 },
                        taskTrace := st.taskTrace ++ [{ st.task with current_action := some a.action, steps_completed := stepIdx + 1 }],
                        recent := pushRecent st.recent (actionSig a),
                        executed := st.executed ++ [(stepIdx, k)] }
              (trs ++ [.errorResult a.tool_use_id e]) by
            simp only [runActions]
            rw [if_neg hshot, if_neg hstuck, hex]]
          exact hmain _ _ rfl rfl
        | none =>
          rw [show runActions fx stepIdx (a :: rest) k st trs =
            runActions fx stepIdx rest (k + 1)
              { st with task := { st.task with current_action := some a.action, steps_completed := stepIdx + 1 },
                        taskTrace := st.taskTrace ++ [{ st.task with current_action := some a.action, steps_completed := stepIdx + 1 }],
                        recent := pushRecent st.recent (actionSig a),
                        executed := st.executed ++ [(stepIdx, k)] }
              (trs ++ [.screenshotResult a.tool_use_id fx.screenshot]) by
            simp only [runActions]
            rw [if_neg hshot, if_neg hstuck, hex]]
          exact hmain _ _ rfl rfl

/-- Trace shape of the outer agent loop. -/
theorem runLoopSteps_trace_shape (fx : LoopFx) (maxSteps : Nat) :
    ∀ (stepsList : List Nat) (st : LoopState), st.task.status = .running →
      ∃ new fin, (runLoopSteps fx maxSteps stepsList st).taskTrace =
          st.taskTrace ++ new ++ [fin] ∧
        (∀ x ∈ new, x.status = .running) ∧ fin.status.isTerminal = true ∧
        (runLoopSteps fx maxSteps stepsList st).task = fin := by
  intro stepsList
  induction stepsList with
  | nil =>
    intro st _
    refine ⟨[],
      { st.task with status := .failed, error := some ("Max steps (" ++ toString maxSteps ++ ") reached without completing the task") },
      ?_, by simp, rfl, rfl⟩
    simp [runLoopSteps]
  | cons stepIdx restSteps ih =>
    intro st ht
    by_cases hc : fx.cancelAt stepIdx = true
    · refine ⟨[],
        { st.task with status := .cancelled, result := some ("Cancelled after " ++ toString stepIdx ++ " steps") },
        ?_, by simp, rfl, ?_⟩
      · simp only [runLoopSteps, hc, if_true]
        simp
      · simp only [runLoopSteps, hc, if_true]
    · cases hllm : fx.llm stepIdx with
      | fail msg =>
        refine ⟨[],
          { st.task with status := .failed, error := some ("LLM error: " ++ msg) },
          ?_, by simp, rfl, ?_⟩
        · simp only [runLoopSteps, hc, Bool.false_eq_true, if_false, hllm]
          simp
        · simp only [runLoopSteps, hc, Bool.false_eq_true, if_false, hllm]
      | reply actions text =>
        by_cases hempty : actions.isEmpty = true
        · refine ⟨[],
            { st.task with status := .completed, result := some (if text ≠ "" then text else "Task completed"), steps_completed := stepIdx + 1 },
            ?_, by simp, rfl, ?_⟩
          · simp only [runLoopSteps, hc, Bool.false_eq_true, if_false, hllm, hempty, if_true]
            simp
          · simp only [runLoopSteps, hc, Bool.false_eq_true, if_false, hllm, hempty, if_true]
        · rcases hra : runActions fx stepIdx actions 0
            { st with messages := st.messages ++ [.assistant stepIdx] } [] with ⟨st1, trs1⟩
          have hshape := runActions_trace_shape fx stepIdx actions 0
            { st with messages := st.messages ++ [.assistant stepIdx] } []
          rw [hra] at hshape
          obtain ⟨hstat1, new1, htr1, hmem1⟩ := hshape
          have hrun : runLoopSteps fx maxSteps (stepIdx :: restSteps) st =
              runLoopSteps fx maxSteps restSteps
                { st1 with messages := st1.messages ++ [.userResults trs1] } := by
            simp only [runLoopSteps]
            rw [if_neg hc, hllm]
            simp only [hempty, Bool.false_eq_true, if_false, hra]
          have hst1run : st1.task.status = TaskStatus.running := hstat1.trans ht
          obtain ⟨new2, fin, htr2, hmem2, hfin, htask⟩ := ih
            { st1 with messages := st1.messages ++ [.userResults trs1] } hst1run
          refine ⟨new1 ++ new2, fin, ?_, ?_, hfin, ?_⟩
          · rw [hrun, htr2]
            have h1 : st1.taskTrace = st.taskTrace ++ new1 := htr1
            rw [show ({ st1 with messages := st1.messages ++ [.userResults trs1] } : LoopState).taskTrace = st1.taskTrace from rfl, h1]
            simp [List.append_assoc]
          · intro x hx
            rcases List.mem_append.mp hx with hx | hx
            · rw [← ht]; exact hmem1 x hx
            · exact hmem2 x hx
          · rw [hrun]; exact htask

/-- `batchRowOutcome` never changes the batch status (it only records row
results). -/
theorem batchRowOutcome_status (fx : BatchFx) (workflow : Workflow) (total : Nat)
    (row : List (String × String)) (i : Nat) (b : BatchState) :
    (batchRowOutcome fx workflow total row i b).status = b.status := by
  unfold batchRowOutcome
  split
  · rfl
  · dsimp only
    (repeat' split) <;> rfl

/-- Trace shape of the batch row loop. -/
theorem runBatchRows_trace_shape (fx : BatchFx) (workflow : Workflow) (total : Nat) :
    ∀ (rows : List (List (String × String))) (i : Nat) (b : BatchState),
      b.status = "running" →
      ∃ tr fin, (runBatchRows fx workflow total rows i b).2 = tr ++ [fin] ∧
        (∀ x ∈ tr, x.status = "running") ∧
        (fin.status = "completed" ∨ fin.status = "cancelled") ∧
        (runBatchRows fx workflow total rows i b).1 = fin := by
  intro rows
  induction rows with
  | nil =>
    intro i b hb
    exact ⟨[], _, rfl, by simp, Or.inl rfl, rfl⟩
  | cons row rest ih =>
    intro i b hb
    by_cases hc : fx.batchCancelAt i = true
    · refine ⟨[],
        { b with results := b.results.map (fun r => if r.index ≥ i then { r with status := "skipped" } else r), status := "cancelled" },
        ?_, by simp, Or.inr rfl, ?_⟩
      · simp only [runBatchRows, hc, if_true]
        rfl
      · simp only [runBatchRows, hc, if_true]
    · set b1 : BatchState := { b with current_index := i, results := setRow b.results i (fun r => { r with status := "running" }) } with hb1def
      have hb1 : b1.status = "running" := hb
      set aft : BatchState := batchRowOutcome fx workflow total row i b1 with haft
      have hafter : aft.status = "running" := by
        rw [haft, batchRowOutcome_status]
        exact hb1
      rcases hrec : runBatchRows fx workflow total rest (i + 1) aft with ⟨bf, tr'⟩
      have hshape := ih (i + 1) aft hafter
      rw [hrec] at hshape
      obtain ⟨tr, fin, htr, hmem, hfin, htask⟩ := hshape
      have hrun : runBatchRows fx workflow total (row :: rest) i b = (bf, b1 :: aft :: tr') := by
        simp only [runBatchRows]
        rw [if_neg hc, ← hb1def, ← haft, hrec]
      refine ⟨b1 :: aft :: tr, fin, ?_, ?_, hfin, ?_⟩
      · rw [hrun]
        have htr' : tr' = tr ++ [fin] := htr
        show b1 :: aft :: tr' = (b1 :: aft :: tr) ++ [fin]
        rw [htr']
        rfl
      · intro x hx
        rcases List.mem_cons.mp hx with hx | hx
        · subst hx; exact hb1
        · rcases List.mem_cons.mp hx with hx | hx
          · subst hx; exact hafter
          · exact hmem x hx
      · rw [hrun]
        exact htask

/-- C8 (corrected): once a Task or Batch reaches a terminal status, no
status, progress, result or error field changes afterwards — in every run
(direct replay, AI loop, batch) every broadcast before the last shows a
non-terminal status, the last broadcast is terminal and is the final
state; the one field still mutable after termination is the cooperative
cancellation flag, which a late cancel request sets while leaving every
other field unchanged. -/
theorem C8_terminal_status_final :
    (∀ (fx : Nat → StepFx) (cAt : Nat → Bool) (wf : Workflow) (t : TaskState),
      ∃ fin, (∀ x ∈ (run_workflow_direct fx cAt wf t).trace.dropLast,
          x.status.isTerminal = false) ∧
        (run_workflow_direct fx cAt wf t).trace.getLast? = some fin ∧
        fin.status.isTerminal = true ∧ (run_workflow_direct fx cAt wf t).task = fin) ∧
    (∀ (fx : LoopFx) (maxSteps : Nat) (t : TaskState),
      ∃ fin, (∀ x ∈ (run_agent_loop fx maxSteps t).taskTrace.dropLast,
          x.status.isTerminal = false) ∧
        (run_agent_loop fx maxSteps t).taskTrace.getLast? = some fin ∧
        fin.status.isTerminal = true ∧ (run_agent_loop fx maxSteps t).task = fin) ∧
    (∀ (fx : BatchFx) (wf : Workflow) (batch : BatchState),
      ∃ fin, (∀ x ∈ (run_batch fx wf batch).2.dropLast,
          x.status ≠ "completed" ∧ x.status ≠ "cancelled") ∧
        (run_batch fx wf batch).2.getLast? = some fin ∧
        (fin.status = "completed" ∨ fin.status = "cancelled") ∧
        (run_batch fx wf batch).1 = fin) ∧
    (∀ t : TaskState, t.cancel.status = t.status ∧
      t.cancel.steps_completed = t.steps_completed ∧
      t.cancel.current_action = t.current_action ∧
      t.cancel.result = t.result ∧ t.cancel.error = t.error ∧
      t.cancel.cancelFlag = true) ∧
    (∀ b : BatchState, b.cancel.status = b.status ∧ b.cancel.results = b.results ∧
      b.cancel.current_index = b.current_index ∧ b.cancel.cancelFlag = true) := by
  refine ⟨?_, ?_, ?_, fun t => ⟨rfl, rfl, rfl, rfl, rfl, rfl⟩,
    fun b => ⟨rfl, rfl, rfl, rfl⟩⟩
  · intro fx cAt wf t
    obtain ⟨tr, fin, htr, hmem, hfin, htask⟩ :=
      runSteps_trace_shape fx cAt wf.steps.length wf.steps 0
        { t with status := .running } rfl
    refine ⟨fin, ?_, ?_, hfin, ?_⟩
    · intro x hx
      have : (run_workflow_direct fx cAt wf t).trace =
          ({ t with status := .running } :: tr) ++ [fin] := by
        simp only [run_workflow_direct, htr]
        rfl
      rw [this, List.dropLast_concat] at hx
      rcases List.mem_cons.mp hx with hx | hx
      · subst hx; rfl
      · rw [hmem x hx]; rfl
    · have : (run_workflow_direct fx cAt wf t).trace =
          ({ t with status := .running } :: tr) ++ [fin] := by
        simp only [run_workflow_direct, htr]
        rfl
      rw [this, List.getLast?_concat]
    · simpa [run_workflow_direct] using htask
  · intro fx maxSteps t
    obtain ⟨new, fin, htr, hmem, hfin, htask⟩ :=
      runLoopSteps_trace_shape fx maxSteps (List.range maxSteps)
        { task := { t with status := .running }
          messages := [.userInstruction t.instruction fx.screenshot]
          recent := []
          taskTrace := [{ t with status := .running }]
          executed := [] } rfl
    refine ⟨fin, ?_, ?_, hfin, ?_⟩
    · intro x hx
      rw [show (run_agent_loop fx maxSteps t).taskTrace =
          ([{ t with status := .running }] ++ new) ++ [fin] by
        simp only [run_agent_loop, htr, List.append_assoc]] at hx
      rw [List.dropLast_concat] at hx
      rcases List.mem_append.mp hx with hx | hx
      · rcases List.mem_singleton.mp hx with rfl; rfl
      · rw [hmem x hx]; rfl
    · rw [show (run_agent_loop fx maxSteps t).taskTrace =
          ([{ t with status := .running }] ++ new) ++ [fin] by
        simp only [run_agent_loop, htr, List.append_assoc]]
      rw [List.getLast?_concat]
    · exact htask
  · intro fx wf batch
    obtain ⟨tr, fin, htr, hmem, hfin, htask⟩ :=
      runBatchRows_trace_shape fx wf batch.rows.length batch.rows 0
        { batch with status := "running" } rfl
    rcases hrun : runBatchRows fx wf batch.rows.length batch.rows 0
      { batch with status := "running" } with ⟨bf, trace⟩
    rw [hrun] at htr htask
    refine ⟨fin, ?_, ?_, hfin, ?_⟩
    · intro x hx
      rw [show (run_batch fx wf batch).2 =
          ({ batch with status := "running" } :: tr) ++ [fin] by
        simp only [run_batch, hrun, htr]
        rfl] at hx
      rw [List.dropLast_concat] at hx
      rcases List.mem_cons.mp hx with hx | hx
      · subst hx; exact ⟨by simp, by simp⟩
      · rw [hmem x hx]
        exact ⟨by simp, by simp⟩
    · rw [show (run_batch fx wf batch).2 =
          ({ batch with status := "running" } :: tr) ++ [fin] by
        simp only [run_batch, hrun, htr]
        rfl]
      rw [List.getLast?_concat]
    · simpa [run_batch, hrun] using htask

/-- Witness for C8: a concrete one-step direct replay ends in a terminal
status, all broadcasts before its last are non-terminal, and cancelling an
already-completed task changes its status and result in no way. -/
theorem C8_terminal_status_final_witness :
    (run_workflow_direct (fun _ => { }) (fun _ => false)
        { name := "wf", steps := [{ action := "key", key := "Enter" }] }
        { task_id := "t8", instruction := "replay" }).task.status.isTerminal = true ∧
    ((run_workflow_direct (fun _ => { }) (fun _ => false)
        { name := "wf", steps := [{ action := "key", key := "Enter" }] }
        { task_id := "t8", instruction := "replay" }).trace.dropLast.all
      (fun x => !x.status.isTerminal)) = true ∧
    (TaskState.cancel
        { task_id := "t8", instruction := "replay", status := .completed,
          result := some "done" }).status = .completed ∧
    (TaskState.cancel
        { task_id := "t8", instruction := "replay", status := .completed,
          result := some "done" }).result = some "done" := by
  obtain ⟨fin, _, _, hfin, htask⟩ := C8_terminal_status_final.1 (fun _ => { })
    (fun _ => false) { name := "wf", steps := [{ action := "key", key := "Enter" }] }
    { task_id := "t8", instruction := "replay" }
  have hD := C8_terminal_status_final.2.2.2.1
    { task_id := "t8", instruction := "replay", status := .completed,
      result := some "done" }
  exact ⟨by rw [htask]; exact hfin, by decide, hD.1, hD.2.2.2.1⟩

/-- Counterexample for C8 as stated: cancelling an already-completed task
mutates its `_cancel` field, so "no field of that state is mutated
afterwards" fails for the cancellation flag. -/
theorem C8_terminal_status_final_counterexample :
    ({ task_id := "t", instruction := "i", status := .completed }
        : TaskState).status.isTerminal = true ∧
    TaskState.cancel { task_id := "t", instruction := "i", status := .completed } ≠
      { task_id := "t", instruction := "i", status := .completed } := by decide

end LocalAgent
